import Mathlib

/-!
Verification of the snapwright screenshot library against its specification.

The development shallowly embeds the Python sources:
  * `src/snapwright/browser_manager.py` (browser context pool)
  * `src/snapwright/cache.py`           (screenshot cache)
  * `src/snapwright/core.py`            (capture / extract orchestrator)
  * `src/snapwright/config.py`          (runtime configuration)

Pure functions become Lean functions; stateful methods become explicit
state-passing functions; external effects (file system, renderer engine,
clock) are passed in as explicit oracle values.  Machine-level details
(MD5, JSON canonical serialization) are embedded as executable functions.
-/

namespace Snapwright

/-! ### Configuration (config.py)

`BrowserConfig` as a typed record of the dataclass fields, with the
defaults from `config.py`.  String-valued fields are carried as `List Char`.
-/

structure BrowserConfig where
  headless : Bool := true
  timeout : Nat := 30000
  viewport_width : Nat := 1920
  viewport_height : Nat := 1080
  cache_enabled : Bool := true
  cache_dir : String := "cache/screenshots"
  cache_ttl_hours : Nat := 6
  max_contexts : Nat := 3
  max_retries : Nat := 2
  wait_until : String := "networkidle"
  ignore_https_errors : Bool := true
  downloads_dir : String := "temp/downloads"
  default_output_dir : String := "screenshots"
  browser_args : List String :=
    ["--no-sandbox", "--disable-setuid-sandbox", "--disable-dev-shm-usage",
     "--disable-gpu", "--disable-web-security",
     "--disable-features=IsolateOrigins,site-per-process"]
deriving DecidableEq

def defaultConfig : BrowserConfig := {}

/-! ### Browser pool (browser_manager.py)

A tracked context is abstracted by an identity (`cid`, standing for the
Python object identity) and the number of its open pages
(`len(ctx.pages)`).  The pool state carries the tracked context list, a
counter used to give fresh identities to newly created contexts, and
whether the engine/browser has been started (`self.browser is not None`).
-/

structure Ctx where
  cid : Nat
  pages : Nat
deriving DecidableEq

structure PoolState where
  contexts : List Ctx
  nextId : Nat
  browserStarted : Bool
deriving DecidableEq

inductive PoolErr where
  /-- `BrowserError` raised by `get_browser` when the engine fails to launch. -/
  | browserLaunch
  /-- Python `ValueError` from `min([])` when no context exists and the cap is zero. -/
  | emptyMin
deriving DecidableEq

/-- Line 59 of browser_manager.py:
`self.contexts = [ctx for ctx in self.contexts if ctx.pages]` —
keeps exactly the contexts whose pages list is non-empty. -/
def prune (l : List Ctx) : List Ctx := l.filter (fun c => c.pages != 0)

/-- Python `min(self.contexts, key=lambda c: len(c.pages))`: first element
attaining the minimal page count; `none` on the empty list (ValueError). -/
def minByPages : List Ctx → Option Ctx
  | [] => none
  | c :: rest => some (rest.foldl (fun best x => if x.pages < best.pages then x else best) c)

/-- `BrowserManager.get_context`, lines 56-86 of browser_manager.py.
`launchOk` is the oracle for whether launching the engine would succeed
(`get_browser` launches only when `self.browser` is not yet set).
Returns the state after the call together with the outcome. -/
def get_context (cfg : BrowserConfig) (launchOk : Bool) (st : PoolState) :
    PoolState × Except PoolErr Ctx :=
  let pruned := prune st.contexts
  let st1 : PoolState := { st with contexts := pruned }
  match pruned.find? (fun c => c.pages == 0) with
  | some c => (st1, .ok c)
  | none =>
    if pruned.length < cfg.max_contexts then
      if st1.browserStarted || launchOk then
        let c : Ctx := { cid := st1.nextId, pages := 0 }
        ({ contexts := pruned ++ [c], nextId := st1.nextId + 1, browserStarted := true }, .ok c)
      else (st1, .error .browserLaunch)
    else
      match minByPages pruned with
      | some c => (st1, .ok c)
      | none => (st1, .error .emptyMin)

/-! Pool lemmas. -/

theorem prune_find_zero_eq_none (l : List Ctx) :
    (prune l).find? (fun c => c.pages == 0) = none := by
  rw [List.find?_eq_none]
  intro c hc
  have := List.of_mem_filter hc
  simpa using this

theorem prune_length_le (l : List Ctx) : (prune l).length ≤ l.length :=
  List.length_filter_le _ l

theorem minFold_spec (l : List Ctx) (b : Ctx) :
    (l.foldl (fun best x => if x.pages < best.pages then x else best) b = b ∨
      l.foldl (fun best x => if x.pages < best.pages then x else best) b ∈ l) ∧
    (l.foldl (fun best x => if x.pages < best.pages then x else best) b).pages ≤ b.pages ∧
    (∀ d ∈ l, (l.foldl (fun best x => if x.pages < best.pages then x else best) b).pages ≤ d.pages) := by
  induction l generalizing b with
  | nil => simp
  | cons x t ih =>
    simp only [List.foldl_cons]
    rcases ih (if x.pages < b.pages then x else b) with ⟨hmem, hle, hall⟩
    refine ⟨?_, ?_, ?_⟩
    · rcases hmem with h | h
      · rw [h]
        by_cases hx : x.pages < b.pages
        · simp [hx]
        · simp [hx]
      · right; exact List.mem_cons_of_mem _ h
    · refine le_trans hle ?_
      by_cases hx : x.pages < b.pages
      · simp [hx]; omega
      · simp [hx]
    · intro d hd
      rcases List.mem_cons.mp hd with h | h
      · rw [h]
        refine le_trans hle ?_
        by_cases hx : x.pages < b.pages
        · simp [hx]
        · simp [hx]; omega
      · exact hall d h

theorem minByPages_spec (l : List Ctx) (c : Ctx) (h : minByPages l = some c) :
    c ∈ l ∧ ∀ d ∈ l, c.pages ≤ d.pages := by
  match l with
  | [] => simp [minByPages] at h
  | x :: t =>
    simp only [minByPages, Option.some.injEq] at h
    rcases minFold_spec t x with ⟨hmem, hle, hall⟩
    constructor
    · rcases hmem with h' | h'
      · rw [← h, h']; exact List.mem_cons_self _ _
      · rw [← h]; exact List.mem_cons_of_mem _ h'
    · intro d hd
      rcases List.mem_cons.mp hd with h' | h'
      · subst h'; rw [← h]; exact hle
      · rw [← h]; exact hall d h'

theorem minByPages_isSome (l : List Ctx) (h : l ≠ []) : ∃ c, minByPages l = some c := by
  match l with
  | [] => exact absurd rfl h
  | x :: t => exact ⟨_, rfl⟩

/-- C1: if the tracked list contains a context with zero open pages and the
pool is under its cap, `get_context` is claimed to return that tracked
context without creating a new one; the code instead drops the idle
context from tracking at the top of the call (the "clean up closed
contexts" filter removes every zero-page context) and creates a brand new
context.  Evaluated at a pool tracking exactly one idle context. -/
theorem c1_idle_context_dropped_and_new_created :
    (get_context defaultConfig true
        { contexts := [{ cid := 0, pages := 0 }], nextId := 1, browserStarted := true }).2 =
      .ok { cid := 1, pages := 0 } ∧
    ({ cid := 0, pages := 0 } : Ctx) ∉
      (get_context defaultConfig true
        { contexts := [{ cid := 0, pages := 0 }], nextId := 1, browserStarted := true }).1.contexts ∧
    (get_context defaultConfig true
        { contexts := [{ cid := 0, pages := 0 }], nextId := 1, browserStarted := true }).1.contexts =
      [{ cid := 1, pages := 0 }] := by
  refine ⟨rfl, ?_, rfl⟩
  decide

/-- C2: pool cap invariant.  Under a positive configured cap and a
successfully starting engine, every `get_context` call succeeds, the
tracked context count never exceeds `max_contexts`, and whenever the pool
is at its cap after the initial prune the call returns a tracked context
with the minimal number of open pages without creating a new one. -/
theorem c2_pool_cap_invariant (cfg : BrowserConfig) (st : PoolState)
    (hlen : st.contexts.length ≤ cfg.max_contexts) (hmax : 0 < cfg.max_contexts) :
    (∃ c, (get_context cfg true st).2 = .ok c) ∧
    (get_context cfg true st).1.contexts.length ≤ cfg.max_contexts ∧
    ((prune st.contexts).length = cfg.max_contexts →
      (get_context cfg true st).1.contexts = prune st.contexts ∧
      ∃ c, (get_context cfg true st).2 = .ok c ∧ c ∈ prune st.contexts ∧
        ∀ d ∈ prune st.contexts, c.pages ≤ d.pages) := by
  have hfind := prune_find_zero_eq_none st.contexts
  by_cases hlt : (prune st.contexts).length < cfg.max_contexts
  · have h1 : (get_context cfg true st).2 = .ok { cid := st.nextId, pages := 0 } := by
      simp [get_context, hfind, hlt]
    have h2 : (get_context cfg true st).1.contexts = prune st.contexts ++ [{ cid := st.nextId, pages := 0 }] := by
      simp [get_context, hfind, hlt]
    refine ⟨⟨_, h1⟩, ?_, ?_⟩
    · rw [h2]; simp; omega
    · intro hcap; omega
  · have hne : prune st.contexts ≠ [] := by
      intro hnil
      rw [hnil] at hlt
      simp at hlt
      omega
    obtain ⟨c, hc⟩ := minByPages_isSome _ hne
    have h1 : (get_context cfg true st).2 = .ok c := by
      simp [get_context, hfind, hlt, hc]
    have h2 : (get_context cfg true st).1.contexts = prune st.contexts := by
      simp [get_context, hfind, hlt, hc]
    obtain ⟨hmem, hmin⟩ := minByPages_spec _ _ hc
    exact ⟨⟨c, h1⟩, by rw [h2]; exact le_trans (prune_length_le _) hlen,
      fun _ => ⟨h2, c, h1, hmem, hmin⟩⟩

/-- C2 witness: a pool at its cap of 2 with contexts carrying 3 and 1 open
pages returns the second (least-loaded) context and creates nothing. -/
theorem c2_pool_cap_invariant_witness :
    (∃ c, (get_context { defaultConfig with max_contexts := 2 } true
        { contexts := [{ cid := 5, pages := 3 }, { cid := 7, pages := 1 }],
          nextId := 9, browserStarted := true }).2 = .ok c) ∧
    (get_context { defaultConfig with max_contexts := 2 } true
        { contexts := [{ cid := 5, pages := 3 }, { cid := 7, pages := 1 }],
          nextId := 9, browserStarted := true }).1.contexts.length ≤ 2 := by
  have h := c2_pool_cap_invariant { defaultConfig with max_contexts := 2 }
    { contexts := [{ cid := 5, pages := 3 }, { cid := 7, pages := 1 }],
      nextId := 9, browserStarted := true } (by decide) (by decide)
  exact ⟨h.1, h.2.1⟩

/-! ### Runtime configuration update (config.py, `BrowserConfig.update` / `set_config`)

Python `setattr` stores a value of any runtime type, so for the bulk
update the configuration object is modelled at the attribute level: an
ordered association list from attribute name to dynamic value.
`hasattr` is true for the dataclass fields and for the class methods
`update` and `from_env`; Python double-underscore attributes are outside
the modelled key space.
-/

inductive PyVal where
  | vBool : Bool → PyVal
  | vInt : Int → PyVal
  | vStr : String → PyVal
  | vStrList : List String → PyVal
deriving DecidableEq

abbrev Attrs := List (String × PyVal)

/-- Instance attributes of a `BrowserConfig` dataclass instance, in field
declaration order. -/
def configAttrs (cfg : BrowserConfig) : Attrs :=
  [("headless", .vBool cfg.headless),
   ("timeout", .vInt cfg.timeout),
   ("viewport_width", .vInt cfg.viewport_width),
   ("viewport_height", .vInt cfg.viewport_height),
   ("cache_enabled", .vBool cfg.cache_enabled),
   ("cache_dir", .vStr cfg.cache_dir),
   ("cache_ttl_hours", .vInt cfg.cache_ttl_hours),
   ("max_contexts", .vInt cfg.max_contexts),
   ("max_retries", .vInt cfg.max_retries),
   ("wait_until", .vStr cfg.wait_until),
   ("ignore_https_errors", .vBool cfg.ignore_https_errors),
   ("downloads_dir", .vStr cfg.downloads_dir),
   ("default_output_dir", .vStr cfg.default_output_dir),
   ("browser_args", .vStrList cfg.browser_args)]

def configMethodNames : List String := ["update", "from_env"]

/-- Python `hasattr(self, key)` on a `BrowserConfig` instance. -/
def hasattrBC (a : Attrs) (k : String) : Bool :=
  a.any (fun p => p.1 == k) || configMethodNames.contains k

/-- Python `setattr(self, key, value)`: overwrite the instance attribute
in place, or add a shadowing instance attribute when only the class has
the name. -/
def setattrBC (a : Attrs) (k : String) (v : PyVal) : Attrs :=
  if a.any (fun p => p.1 == k) then
    a.map (fun p => if p.1 == k then (k, v) else p)
  else a ++ [(k, v)]

/-- `BrowserConfig.update`, lines 62-68 of config.py (`set_config` merely
forwards to it): iterate the keyword arguments in order; a recognized key
is applied via `setattr` immediately, an unrecognized key raises
`ValueError` on the spot.  The returned pair is the attribute state at
return/raise time together with the raised message (if any). -/
def configUpdate (a : Attrs) : List (String × PyVal) → Attrs × Option String
  | [] => (a, none)
  | (k, v) :: rest =>
    if hasattrBC a k then configUpdate (setattrBC a k v) rest
    else (a, some ("Unknown configuration option: " ++ k))

/-- Sequential application of keyword arguments without any error check. -/
def applyKwargs (a : Attrs) (l : List (String × PyVal)) : Attrs :=
  l.foldl (fun acc kv => setattrBC acc kv.1 kv.2) a

theorem hasattrBC_setattrBC_preserved (a : Attrs) (k k' : String) (v : PyVal)
    (hk : hasattrBC a k = false) (hk' : hasattrBC a k' = true) :
    hasattrBC (setattrBC a k' v) k = false := by
  simp only [hasattrBC, Bool.or_eq_false_iff, List.any_eq_false] at hk
  obtain ⟨hk1, hk2⟩ := hk
  simp only [hasattrBC, Bool.or_eq_true, List.any_eq_true] at hk'
  simp only [hasattrBC, Bool.or_eq_false_iff, List.any_eq_false, setattrBC]
  by_cases hmem : a.any (fun p => p.1 == k') = true
  · rw [if_pos hmem]
    refine ⟨?_, hk2⟩
    intro p hp
    rw [List.mem_map] at hp
    obtain ⟨q, hq, hpq⟩ := hp
    by_cases hq' : q.1 == k'
    · simp only [hq', if_pos] at hpq
      rw [← hpq]
      simp only [beq_iff_eq]
      intro hkk'
      rw [List.any_eq_true] at hmem
      obtain ⟨r, hr, hr'⟩ := hmem
      exact hk1 r hr (by rw [hkk'] at hr'; exact hr')
    · rw [if_neg (by simpa using hq')] at hpq
      rw [← hpq]
      exact hk1 q hq
  · rw [if_neg hmem]
    refine ⟨?_, hk2⟩
    intro p hp
    rcases List.mem_append.mp hp with h | h
    · exact hk1 p h
    · simp only [List.mem_singleton] at h
      rw [h]
      simp only [beq_iff_eq]
      intro hkk'
      rcases hk' with ⟨q, hq, hq'⟩ | h'
      · exact hmem (List.any_eq_true.mpr ⟨q, hq, hq'⟩)
      · rw [hkk'] at h'; exact absurd h' (by simpa using hk2)

theorem hasattrBC_setattrBC_mono (a : Attrs) (k k' : String) (v : PyVal)
    (hk : hasattrBC a k = true) :
    hasattrBC (setattrBC a k' v) k = true := by
  simp only [hasattrBC, Bool.or_eq_true, List.any_eq_true] at hk ⊢
  rcases hk with ⟨p, hp, hp'⟩ | h
  · left
    simp only [setattrBC]
    by_cases hmem : a.any (fun q => q.1 == k') = true
    · rw [if_pos hmem]
      by_cases hpk' : p.1 == k'
      · refine ⟨(k', v), List.mem_map.mpr ⟨p, hp, by simp [hpk']⟩, ?_⟩
        have h1 : p.1 = k := by simpa using hp'
        have h2 : p.1 = k' := by simpa using hpk'
        simp [← h1, ← h2]
      · exact ⟨p, List.mem_map.mpr ⟨p, hp, by simp [hpk']⟩, hp'⟩
    · rw [if_neg hmem]
      exact ⟨p, List.mem_append.mpr (Or.inl hp), hp'⟩
  · right; exact h

/-- C10: the bulk configuration update is not atomic.  For a keyword list
made of recognized keys followed by one unrecognized key, `update` raises
`ValueError` at that key, and at raise time every earlier recognized key
has already been applied to the configuration object — no rollback. -/
theorem c10_update_not_atomic (a : Attrs) (pre : List (String × PyVal))
    (k : String) (v : PyVal) (rest : List (String × PyVal))
    (hpre : ∀ kv ∈ pre, hasattrBC a kv.1 = true)
    (hk : hasattrBC a k = false) :
    configUpdate a (pre ++ (k, v) :: rest) =
      (applyKwargs a pre, some ("Unknown configuration option: " ++ k)) := by
  induction pre generalizing a with
  | nil =>
    simp only [List.nil_append, applyKwargs, List.foldl_nil]
    simp [configUpdate, hk]
  | cons kv pre' ih =>
    have hkv : hasattrBC a kv.1 = true := hpre kv (List.mem_cons_self _ _)
    have step : configUpdate a ((kv :: pre') ++ (k, v) :: rest) =
        configUpdate (setattrBC a kv.1 kv.2) (pre' ++ (k, v) :: rest) := by
      rw [List.cons_append]
      show configUpdate a ((kv.1, kv.2) :: (pre' ++ (k, v) :: rest)) = _
      simp [configUpdate, hkv]
    rw [step]
    have happ : applyKwargs a (kv :: pre') = applyKwargs (setattrBC a kv.1 kv.2) pre' := by
      simp [applyKwargs]
    rw [happ]
    exact ih (setattrBC a kv.1 kv.2)
      (fun kv' h' => hasattrBC_setattrBC_mono _ _ _ _ (hpre kv' (List.mem_cons_of_mem _ h')))
      (hasattrBC_setattrBC_preserved _ _ _ _ hk hkv)

/-- C10 witness: updating `headless` then hitting the unknown key
`not_an_option` raises while leaving `headless` already set to false. -/
theorem c10_update_not_atomic_witness :
    configUpdate (configAttrs defaultConfig)
        [("headless", .vBool false), ("not_an_option", .vInt 1)] =
      (applyKwargs (configAttrs defaultConfig) [("headless", .vBool false)],
       some ("Unknown configuration option: " ++ "not_an_option")) ∧
    (applyKwargs (configAttrs defaultConfig) [("headless", .vBool false)]).head? =
      some ("headless", .vBool false) := by
  constructor
  · exact c10_update_not_atomic (configAttrs defaultConfig)
      [("headless", .vBool false)] "not_an_option" (.vInt 1) []
      (by decide) (by decide)
  · decide

/-! ### Cache key computation (cache.py, `ScreenshotCache.get_cache_key`)

`get_cache_key` serializes `{'url': url, 'options': options, 'viewport':
f"{w}x{h}"}` with `json.dumps(..., sort_keys=True)` and hashes the UTF-8
bytes with MD5.  The options dictionary is the one built by
`capture_screenshot` (core.py lines 67-72): `full_page`, `selector`,
`mobile`, `device_name`.  Strings are carried as `List Char`; the JSON
escaping below is the `ensure_ascii` escaping of Python's `json` module.
-/

/-- Lowercase hexadecimal digit, meaningful for `n < 16`. -/
def hexDig (n : Nat) : Char :=
  if n = 0 then '0' else if n = 1 then '1' else if n = 2 then '2'
  else if n = 3 then '3' else if n = 4 then '4' else if n = 5 then '5'
  else if n = 6 then '6' else if n = 7 then '7' else if n = 8 then '8'
  else if n = 9 then '9' else if n = 10 then 'a' else if n = 11 then 'b'
  else if n = 12 then 'c' else if n = 13 then 'd' else if n = 14 then 'e'
  else 'f'

/-- Four lowercase hex digits of `n < 0x10000` (Python `'%04x' % n`). -/
def hex4 (n : Nat) : List Char :=
  [hexDig (n / 4096 % 16), hexDig (n / 256 % 16), hexDig (n / 16 % 16), hexDig (n % 16)]

/-- One character of Python `json` `ensure_ascii` escaping: the special
two-character escapes, `\uXXXX` for other control and non-ASCII BMP
characters, surrogate pairs for astral characters, the character itself
for printable ASCII. -/
def escChar (c : Char) : List Char :=
  if c = '"' then ['\\', '"']
  else if c = '\\' then ['\\', '\\']
  else if c.toNat = 8 then ['\\', 'b']
  else if c.toNat = 12 then ['\\', 'f']
  else if c.toNat = 10 then ['\\', 'n']
  else if c.toNat = 13 then ['\\', 'r']
  else if c.toNat = 9 then ['\\', 't']
  else if c.toNat < 32 then '\\' :: 'u' :: hex4 c.toNat
  else if c.toNat ≤ 126 then [c]
  else if c.toNat ≤ 65535 then '\\' :: 'u' :: hex4 c.toNat
  else
    ('\\' :: 'u' :: hex4 (55296 + (c.toNat - 65536) / 1024)) ++
    ('\\' :: 'u' :: hex4 (56320 + (c.toNat - 65536) % 1024))

def jsonEscape (s : List Char) : List Char := (s.map escChar).flatten

/-- JSON string literal: quote, escaped body, quote. -/
def jsonStrLit (s : List Char) : List Char := '"' :: jsonEscape s ++ ['"']

def jsonBool (b : Bool) : List Char := if b then ("true").toList else ("false").toList

def jsonOptStr : Option (List Char) → List Char
  | none => ("null").toList
  | some s => jsonStrLit s

/-- Decimal representation, structurally recursive on a fuel bound. -/
def natReprAux : Nat → Nat → List Char
  | _, 0 => []
  | n, fuel + 1 => if n < 10 then [hexDig n] else natReprAux (n / 10) fuel ++ [hexDig (n % 10)]

/-- Decimal representation of a natural number (Python `f"{n}"`). -/
def natRepr (n : Nat) : List Char := natReprAux n (n + 1)

/-- `f"{viewport_width}x{viewport_height}"` from `get_cache_key`. -/
def viewportStr (vw vh : Nat) : List Char := natRepr vw ++ 'x' :: natRepr vh

/-- The capture-affecting options dictionary built by `capture_screenshot`
(core.py lines 67-72). -/
structure CacheOptions where
  full_page : Bool
  selector : Option (List Char)
  mobile : Bool
  device_name : Option (List Char)
deriving DecidableEq

/-- `json.dumps(key_data, sort_keys=True)` for
`key_data = {'url': url, 'options': options, 'viewport': f"{vw}x{vh}"}`:
keys sorted alphabetically at both levels, default `", "` / `": "`
separators. -/
def keyString (url : List Char) (o : CacheOptions) (vw vh : Nat) : List Char :=
  ("\x7b\"options\": \x7b\"device_name\": ").toList
  ++ jsonOptStr o.device_name
  ++ (", \"full_page\": ").toList ++ jsonBool o.full_page
  ++ (", \"mobile\": ").toList ++ jsonBool o.mobile
  ++ (", \"selector\": ").toList ++ jsonOptStr o.selector
  ++ ("\x7d, \"url\": ").toList ++ jsonStrLit url
  ++ (", \"viewport\": ").toList ++ jsonStrLit (viewportStr vw vh)
  ++ ("\x7d").toList

/-- UTF-8 encoding of one character (`str.encode()`). -/
def utf8Bytes (c : Char) : List Nat :=
  let n := c.toNat
  if n < 128 then [n]
  else if n < 2048 then [192 + n / 64, 128 + n % 64]
  else if n < 65536 then [224 + n / 4096, 128 + n / 64 % 64, 128 + n % 64]
  else [240 + n / 262144, 128 + n / 4096 % 64, 128 + n / 64 % 64, 128 + n % 64]

def strBytes (s : List Char) : List Nat := (s.map utf8Bytes).flatten

/-! MD5 (`hashlib.md5(...).hexdigest()`), embedded over `Nat` bytes and
32-bit words reduced mod `2^32`. -/

def u32 (n : Nat) : Nat := n % 4294967296

def not32 (n : Nat) : Nat := n ^^^ 4294967295

def rotl32 (x s : Nat) : Nat := u32 ((x <<< s) ||| (x >>> (32 - s)))

def md5K : List Nat :=
  [0xd76aa478, 0xe8c7b756, 0x242070db, 0xc1bdceee,
   0xf57c0faf, 0x4787c62a, 0xa8304613, 0xfd469501,
   0x698098d8, 0x8b44f7af, 0xffff5bb1, 0x895cd7be,
   0x6b901122, 0xfd987193, 0xa679438e, 0x49b40821,
   0xf61e2562, 0xc040b340, 0x265e5a51, 0xe9b6c7aa,
   0xd62f105d, 0x02441453, 0xd8a1e681, 0xe7d3fbc8,
   0x21e1cde6, 0xc33707d6, 0xf4d50d87, 0x455a14ed,
   0xa9e3e905, 0xfcefa3f8, 0x676f02d9, 0x8d2a4c8a,
   0xfffa3942, 0x8771f681, 0x6d9d6122, 0xfde5380c,
   0xa4beea44, 0x4bdecfa9, 0xf6bb4b60, 0xbebfbc70,
   0x289b7ec6, 0xeaa127fa, 0xd4ef3085, 0x04881d05,
   0xd9d4d039, 0xe6db99e5, 0x1fa27cf8, 0xc4ac5665,
   0xf4292244, 0x432aff97, 0xab9423a7, 0xfc93a039,
   0x655b59c3, 0x8f0ccc92, 0xffeff47d, 0x85845dd1,
   0x6fa87e4f, 0xfe2ce6e0, 0xa3014314, 0x4e0811a1,
   0xf7537e82, 0xbd3af235, 0x2ad7d2bb, 0xeb86d391]

def md5S : List Nat :=
  [7, 12, 17, 22, 7, 12, 17, 22, 7, 12, 17, 22, 7, 12, 17, 22,
   5, 9, 14, 20, 5, 9, 14, 20, 5, 9, 14, 20, 5, 9, 14, 20,
   4, 11, 16, 23, 4, 11, 16, 23, 4, 11, 16, 23, 4, 11, 16, 23,
   6, 10, 15, 21, 6, 10, 15, 21, 6, 10, 15, 21, 6, 10, 15, 21]

/-- Little-endian word `M[g]` of a 64-byte chunk. -/
def md5Word (chunk : List Nat) (g : Nat) : Nat :=
  chunk.getD (4 * g) 0 + 256 * chunk.getD (4 * g + 1) 0 +
  65536 * chunk.getD (4 * g + 2) 0 + 16777216 * chunk.getD (4 * g + 3) 0

def md5Step (chunk : List Nat) (st : Nat × Nat × Nat × Nat) (i : Nat) :
    Nat × Nat × Nat × Nat :=
  let (a, b, c, d) := st
  let f :=
    if i < 16 then (b &&& c) ||| (not32 b &&& d)
    else if i < 32 then (d &&& b) ||| (not32 d &&& c)
    else if i < 48 then b ^^^ c ^^^ d
    else c ^^^ (b ||| not32 d)
  let g :=
    if i < 16 then i
    else if i < 32 then (5 * i + 1) % 16
    else if i < 48 then (3 * i + 5) % 16
    else (7 * i) % 16
  let f' := u32 (f + a + md5K.getD i 0 + md5Word chunk g)
  (d, u32 (b + rotl32 f' (md5S.getD i 0)), b, c)

def md5ProcessChunk (st : Nat × Nat × Nat × Nat) (chunk : List Nat) :
    Nat × Nat × Nat × Nat :=
  let (a, b, c, d) := st
  let (a', b', c', d') := (List.range 64).foldl (md5Step chunk) st
  (u32 (a + a'), u32 (b + b'), u32 (c + c'), u32 (d + d'))

/-- `count` little-endian bytes of `n`. -/
def leBytes (n : Nat) : Nat → List Nat
  | 0 => []
  | k + 1 => n % 256 :: leBytes (n / 256) k

/-- MD5 padding: `0x80`, zeros to 56 mod 64, 8-byte little-endian bit length. -/
def md5Pad (msg : List Nat) : List Nat :=
  msg ++ 128 :: List.replicate ((119 - msg.length % 64) % 64) 0 ++ leBytes (8 * msg.length) 8

def md5SplitAux : Nat → List Nat → List (List Nat)
  | 0, _ => []
  | fuel + 1, l => if l.isEmpty then [] else l.take 64 :: md5SplitAux fuel (l.drop 64)

/-- Split the padded message into its 64-byte chunks. -/
def md5SplitChunks (l : List Nat) : List (List Nat) := md5SplitAux l.length l

def md5Bytes (msg : List Nat) : List Nat :=
  let st := (md5SplitChunks (md5Pad msg)).foldl md5ProcessChunk
    (0x67452301, 0xefcdab89, 0x98badcfe, 0x10325476)
  leBytes st.1 4 ++ leBytes st.2.1 4 ++ leBytes st.2.2.1 4 ++ leBytes st.2.2.2 4

def byteHex (b : Nat) : List Char := [hexDig (b / 16), hexDig (b % 16)]

/-- `hashlib.md5(bytes).hexdigest()` as a character list. -/
def md5HexChars (msg : List Nat) : List Char := ((md5Bytes msg).map byteHex).flatten

/-- `ScreenshotCache.get_cache_key`, cache.py lines 44-52: MD5 hex digest
of the canonical serialization of url, options and viewport. -/
def get_cache_key (url : List Char) (o : CacheOptions) (vw vh : Nat) : List Char :=
  md5HexChars (strBytes (keyString url o vw vh))

/-! ### Cache engine state (cache.py, `ScreenshotCache`)

The cache state holds the in-memory metadata dictionary (an ordered
association list, as Python dicts are ordered), the content of the
persisted index file, the set of artifact files present in the cache
directory, and a count of successful index writes.  File-system effects
are driven by explicit oracles: `saveOk` (whether writing the index
succeeds), `copyOk` (whether `shutil.copy2` succeeds), `unlinkOk`
(whether deleting a given file succeeds); `now` is the current time in
seconds.  Entry timestamps are held as integral seconds (the code stores
`datetime.now().isoformat()` and parses it back with `fromisoformat`).
-/

structure CacheEntry where
  eurl : List Char
  filename : List Char
  timestamp : Int
  options : CacheOptions
deriving DecidableEq

abbrev Metadata := List (List Char × CacheEntry)

structure CacheState where
  metadata : Metadata
  diskIndex : Metadata
  filesOnDisk : List (List Char)
  saveCount : Nat
deriving DecidableEq

inductive CacheErr where
  | cacheError
deriving DecidableEq

def metaLookup (m : Metadata) (k : List Char) : Option CacheEntry :=
  (m.find? (fun p => p.1 == k)).map (fun p => p.2)

/-- Python `del d[k]` (keys are unique in a dict). -/
def metaErase (m : Metadata) (k : List Char) : Metadata :=
  m.filter (fun p => p.1 != k)

/-- Python `d[k] = e`: overwrite in place, or append a new binding. -/
def metaInsert (m : Metadata) (k : List Char) (e : CacheEntry) : Metadata :=
  if m.any (fun p => p.1 == k) then m.map (fun p => if p.1 == k then (k, e) else p)
  else m ++ [(k, e)]

/-- `ScreenshotCache._save_metadata`, cache.py lines 35-42: writes the
whole index; on an I/O failure it raises `CacheError`. -/
def save_metadata (saveOk : Bool) (st : CacheState) : CacheState × Option CacheErr :=
  if saveOk then
    ({ st with diskIndex := st.metadata, saveCount := st.saveCount + 1 }, none)
  else (st, some .cacheError)

/-- Cache TTL in seconds (`timedelta(hours=cache_ttl_hours)`). -/
def ttlSecs (cfg : BrowserConfig) : Int := (cfg.cache_ttl_hours : Int) * 3600

/-- `self.cache_dir / filename`. -/
def cachePath (cfg : BrowserConfig) (fname : List Char) : List Char :=
  cfg.cache_dir.toList ++ '/' :: fname

/-- `ScreenshotCache.get_cached_path`, cache.py lines 54-77.  Returns the
state after the call and either the lookup result or the `CacheError`
propagating out of the orphan-pruning `_save_metadata` call. -/
def get_cached_path (cfg : BrowserConfig) (now : Int) (saveOk : Bool)
    (st : CacheState) (url : List Char) (opts : CacheOptions) :
    CacheState × Except CacheErr (Option (List Char)) :=
  if !cfg.cache_enabled then (st, .ok none)
  else
    let key := get_cache_key url opts cfg.viewport_width cfg.viewport_height
    match metaLookup st.metadata key with
    | none => (st, .ok none)
    | some e =>
      if now - e.timestamp < ttlSecs cfg then
        if st.filesOnDisk.contains e.filename then
          (st, .ok (some (cachePath cfg e.filename)))
        else
          let st1 := { st with metadata := metaErase st.metadata key }
          match save_metadata saveOk st1 with
          | (st2, none) => (st2, .ok none)
          | (st2, some er) => (st2, .error er)
      else (st, .ok none)

def insertFile (fs : List (List Char)) (f : List Char) : List (List Char) :=
  if fs.contains f then fs else fs ++ [f]

/-- `ScreenshotCache.save_to_cache`, cache.py lines 79-108.  The whole
copy-and-persist block is wrapped in `except Exception`, which returns
the original screenshot path; the function itself never raises. -/
def save_to_cache (cfg : BrowserConfig) (now : Int) (copyOk saveOk : Bool)
    (st : CacheState) (url : List Char) (screenshot_path : List Char)
    (opts : CacheOptions) : CacheState × List Char :=
  if !cfg.cache_enabled then (st, screenshot_path)
  else
    let key := get_cache_key url opts cfg.viewport_width cfg.viewport_height
    let fname := key ++ (".png").toList
    if !copyOk then (st, screenshot_path)
    else
      let entry : CacheEntry :=
        { eurl := url, filename := fname, timestamp := now, options := opts }
      let st1 := { st with filesOnDisk := insertFile st.filesOnDisk fname }
      let st2 := { st1 with metadata := metaInsert st1.metadata key entry }
      match save_metadata saveOk st2 with
      | (st3, none) => (st3, cachePath cfg fname)
      | (st3, some _) => (st3, screenshot_path)

/-- Expiry test of `cleanup_old_cache`: `now - cached_time > max_age`. -/
def expiredP (now maxAge : Int) (p : List Char × CacheEntry) : Bool :=
  maxAge < now - p.2.timestamp

/-- One iteration of the scan loop of `cleanup_old_cache`: delete the
expired entry's artifact file if it exists and deletion succeeds. -/
def cleanupFileStep (now maxAge : Int) (unlinkOk : List Char → Bool)
    (fs : List (List Char)) (p : List Char × CacheEntry) : List (List Char) :=
  if expiredP now maxAge p && fs.contains p.2.filename && unlinkOk p.2.filename then
    fs.filter (fun g => g != p.2.filename)
  else fs

/-- `ScreenshotCache.cleanup_old_cache`, cache.py lines 110-137.
`force` is the aggressive flag: TTL multiplier 1 when forced, 2
otherwise.  The index is saved once at the end, only when at least one
entry expired; that save may raise `CacheError`. -/
def cleanup_old_cache (cfg : BrowserConfig) (now : Int)
    (unlinkOk : List Char → Bool) (saveOk : Bool) (st : CacheState)
    (force : Bool) : CacheState × Option CacheErr :=
  let maxAge : Int := ttlSecs cfg * (if force then 1 else 2)
  let expired := st.metadata.filter (expiredP now maxAge)
  let files' := st.metadata.foldl (cleanupFileStep now maxAge unlinkOk) st.filesOnDisk
  let md' := st.metadata.filter (fun p => !(expiredP now maxAge p))
  let st1 := { st with filesOnDisk := files', metadata := md' }
  if expired.isEmpty then (st1, none)
  else save_metadata saveOk st1

/-! Cache lemmas. -/

theorem find?_metaReplace (k : List Char) (e : CacheEntry) :
    ∀ m : Metadata, m.any (fun p => p.1 == k) = true →
      (m.map (fun p => if p.1 == k then (k, e) else p)).find? (fun p => p.1 == k) =
        some (k, e)
  | [], h => by simp at h
  | p :: t, h => by
    by_cases hp : (p.1 == k) = true
    · rw [List.map_cons, if_pos hp]
      exact List.find?_cons_of_pos _ (by simp)
    · rw [List.map_cons, if_neg hp]
      rw [List.find?_cons_of_neg _ (by simpa using hp)]
      apply find?_metaReplace k e t
      have hp' : (p.1 == k) = false := Bool.eq_false_iff.mpr hp
      rw [List.any_cons, hp', Bool.false_or] at h
      exact h

theorem find?_metaAppend (k : List Char) (e : CacheEntry) :
    ∀ m : Metadata, m.any (fun p => p.1 == k) = false →
      (m ++ [(k, e)]).find? (fun p => p.1 == k) = some (k, e)
  | [], _ => by simp
  | p :: t, h => by
    rw [List.any_cons, Bool.or_eq_false_iff] at h
    rw [List.cons_append, List.find?_cons_of_neg _ (by simp [h.1])]
    exact find?_metaAppend k e t h.2

theorem metaLookup_metaInsert_self (m : Metadata) (k : List Char) (e : CacheEntry) :
    metaLookup (metaInsert m k e) k = some e := by
  unfold metaInsert metaLookup
  by_cases h : m.any (fun p => p.1 == k) = true
  · rw [if_pos h, find?_metaReplace k e m h]
    rfl
  · rw [if_neg h, find?_metaAppend k e m (Bool.eq_false_iff.mpr h)]
    rfl

theorem contains_insertFile (fs : List (List Char)) (f : List Char) :
    (insertFile fs f).contains f = true := by
  unfold insertFile
  by_cases h : fs.contains f = true
  · rw [if_pos h]; exact h
  · rw [if_neg h]
    simp

/-- C6: `save_to_cache` is best-effort.  If the artifact copy or the
index write fails, the failure is swallowed and the original screenshot
path is returned; the function never raises by construction (every
fallible step is inside the `except Exception` block).  On success with
caching enabled it returns the key-derived path inside the cache
directory, with the new entry recorded and the whole index persisted. -/
theorem c6_store_swallows_io_failure (cfg : BrowserConfig) (now : Int)
    (copyOk saveOk : Bool) (st : CacheState) (url spath : List Char)
    (opts : CacheOptions) :
    (copyOk = false ∨ saveOk = false →
      (save_to_cache cfg now copyOk saveOk st url spath opts).2 = spath) ∧
    (cfg.cache_enabled = true → copyOk = true → saveOk = true →
      (save_to_cache cfg now copyOk saveOk st url spath opts).2 =
        cachePath cfg
          (get_cache_key url opts cfg.viewport_width cfg.viewport_height ++ (".png").toList) ∧
      metaLookup (save_to_cache cfg now copyOk saveOk st url spath opts).1.metadata
          (get_cache_key url opts cfg.viewport_width cfg.viewport_height) =
        some { eurl := url,
               filename := get_cache_key url opts cfg.viewport_width cfg.viewport_height
                 ++ (".png").toList,
               timestamp := now, options := opts } ∧
      (save_to_cache cfg now copyOk saveOk st url spath opts).1.diskIndex =
        (save_to_cache cfg now copyOk saveOk st url spath opts).1.metadata ∧
      (save_to_cache cfg now copyOk saveOk st url spath opts).1.saveCount = st.saveCount + 1 ∧
      (save_to_cache cfg now copyOk saveOk st url spath opts).1.filesOnDisk.contains
          (get_cache_key url opts cfg.viewport_width cfg.viewport_height ++ (".png").toList) =
        true) := by
  constructor
  · intro hfail
    unfold save_to_cache
    by_cases hen : cfg.cache_enabled = true
    · simp only [hen, Bool.not_true, Bool.false_eq_true, if_false]
      rcases hfail with h | h
      · subst h; simp
      · subst h
        by_cases hcopy : copyOk = true
        · simp [hcopy, save_metadata]
        · have hc : copyOk = false := Bool.eq_false_iff.mpr hcopy
          simp [hc]
    · rw [Bool.not_eq_true] at hen
      simp [hen]
  · intro hen hcopy hsave
    subst hcopy; subst hsave
    unfold save_to_cache
    rw [hen]
    exact ⟨rfl, metaLookup_metaInsert_self _ _ _, rfl, rfl, contains_insertFile _ _⟩

/-- C6 witness: a failing copy returns the original path unchanged, and
a fully successful store returns the key-derived cache path with the
entry recorded. -/
theorem c6_store_swallows_io_failure_witness :
    (save_to_cache defaultConfig 500 false true
        ⟨[], [], [], 0⟩ (("u").toList) (("shot.png").toList) ⟨true, none, false, none⟩).2 =
      ("shot.png").toList ∧
    (save_to_cache defaultConfig 500 true true
        ⟨[], [], [], 0⟩ (("u").toList) (("shot.png").toList) ⟨true, none, false, none⟩).2 =
      cachePath defaultConfig
        (get_cache_key (("u").toList) ⟨true, none, false, none⟩
          defaultConfig.viewport_width defaultConfig.viewport_height ++ (".png").toList) := by
  constructor
  · exact (c6_store_swallows_io_failure defaultConfig 500 false true
      ⟨[], [], [], 0⟩ (("u").toList) (("shot.png").toList) ⟨true, none, false, none⟩).1
      (Or.inl rfl)
  · exact ((c6_store_swallows_io_failure defaultConfig 500 true true
      ⟨[], [], [], 0⟩ (("u").toList) (("shot.png").toList) ⟨true, none, false, none⟩).2
      rfl rfl rfl).1

theorem mem_cleanupFileStep (now maxAge : Int) (u : List Char → Bool)
    (fs : List (List Char)) (p : List Char × CacheEntry) (x : List Char)
    (hx : x ∈ cleanupFileStep now maxAge u fs p) : x ∈ fs := by
  unfold cleanupFileStep at hx
  by_cases hc : (expiredP now maxAge p && fs.contains p.2.filename && u p.2.filename) = true
  · rw [if_pos hc] at hx
    exact List.mem_of_mem_filter hx
  · rw [if_neg hc] at hx
    exact hx

theorem mem_foldl_cleanupFileStep (now maxAge : Int) (u : List Char → Bool) :
    ∀ (md : Metadata) (fs : List (List Char)) (x : List Char),
      x ∈ md.foldl (cleanupFileStep now maxAge u) fs → x ∈ fs
  | [], _, _, hx => hx
  | q :: t, fs, x, hx => by
    rw [List.foldl_cons] at hx
    exact mem_cleanupFileStep now maxAge u fs q x
      (mem_foldl_cleanupFileStep now maxAge u t _ x hx)

theorem cleanupFileStep_removes (now maxAge : Int) (u : List Char → Bool)
    (fs : List (List Char)) (p : List Char × CacheEntry)
    (hexp : expiredP now maxAge p = true) (hu : u p.2.filename = true) :
    p.2.filename ∉ cleanupFileStep now maxAge u fs p := by
  unfold cleanupFileStep
  by_cases hc : (expiredP now maxAge p && fs.contains p.2.filename && u p.2.filename) = true
  · rw [if_pos hc]
    intro hmem
    have := List.mem_filter.mp hmem
    simp at this
  · rw [if_neg hc]
    rw [hexp, hu] at hc
    intro hmem
    apply hc
    simp only [Bool.true_and, Bool.and_true]
    exact List.elem_eq_true_of_mem hmem

theorem foldl_cleanupFileStep_removes (now maxAge : Int) (u : List Char → Bool)
    (hu : ∀ f, u f = true) :
    ∀ (md : Metadata) (fs : List (List Char)) (p : List Char × CacheEntry),
      p ∈ md → expiredP now maxAge p = true →
      p.2.filename ∉ md.foldl (cleanupFileStep now maxAge u) fs
  | [], _, p, hp, _ => absurd hp (List.not_mem_nil p)
  | q :: t, fs, p, hp, hexp => by
    rw [List.foldl_cons]
    rcases List.mem_cons.mp hp with h | h
    · subst h
      intro hmem
      exact cleanupFileStep_removes now maxAge u fs p hexp (hu _)
        (mem_foldl_cleanupFileStep now maxAge u t _ _ hmem)
    · exact foldl_cleanupFileStep_removes now maxAge u hu t _ p h hexp

theorem foldl_cleanupFileStep_id (now maxAge : Int) (u : List Char → Bool) :
    ∀ (md : Metadata) (fs : List (List Char)),
      (∀ p ∈ md, expiredP now maxAge p = false) →
      md.foldl (cleanupFileStep now maxAge u) fs = fs
  | [], fs, _ => rfl
  | q :: t, fs, h => by
    rw [List.foldl_cons]
    have hq : expiredP now maxAge q = false := h q (List.mem_cons_self _ _)
    have hstep : cleanupFileStep now maxAge u fs q = fs := by
      unfold cleanupFileStep
      rw [hq]
      simp
    rw [hstep]
    exact foldl_cleanupFileStep_id now maxAge u t fs
      (fun p hp => h p (List.mem_cons_of_mem _ hp))

/-- C8: TTL expiry and eviction.  A cache entry whose age strictly
exceeds the TTL is never returned by `get_cached_path`, whatever the
state of its artifact file.  `cleanup_old_cache` with the aggressive flag
removes exactly the entries strictly older than TTL (older than 2×TTL
when not aggressive) together with their artifact files (file deletion
succeeding), and the index is written exactly once at the end when
anything was removed, and not at all otherwise. -/
theorem c8_ttl_expiry_and_eviction (cfg : BrowserConfig) (now : Int)
    (st : CacheState) (unlinkOk : List Char → Bool) (force : Bool)
    (hu : ∀ f, unlinkOk f = true) :
    (∀ saveOk url opts e,
      metaLookup st.metadata
          (get_cache_key url opts cfg.viewport_width cfg.viewport_height) = some e →
      ttlSecs cfg < now - e.timestamp →
      get_cached_path cfg now saveOk st url opts = (st, .ok none)) ∧
    ((cleanup_old_cache cfg now unlinkOk true st force).1.metadata =
      st.metadata.filter
        (fun p => !(expiredP now (ttlSecs cfg * (if force then 1 else 2)) p))) ∧
    (∀ p ∈ st.metadata,
      expiredP now (ttlSecs cfg * (if force then 1 else 2)) p = true →
      p.2.filename ∉ (cleanup_old_cache cfg now unlinkOk true st force).1.filesOnDisk) ∧
    (st.metadata.filter (expiredP now (ttlSecs cfg * (if force then 1 else 2))) ≠ [] →
      (cleanup_old_cache cfg now unlinkOk true st force).1.saveCount = st.saveCount + 1 ∧
      (cleanup_old_cache cfg now unlinkOk true st force).1.diskIndex =
        (cleanup_old_cache cfg now unlinkOk true st force).1.metadata ∧
      (cleanup_old_cache cfg now unlinkOk true st force).2 = none) ∧
    (st.metadata.filter (expiredP now (ttlSecs cfg * (if force then 1 else 2))) = [] →
      cleanup_old_cache cfg now unlinkOk true st force = (st, none)) := by
  refine ⟨?_, ?_, ?_, ?_, ?_⟩
  · intro saveOk url opts e hmeta hage
    unfold get_cached_path
    by_cases hen : cfg.cache_enabled = true
    · simp only [hen, Bool.not_true, Bool.false_eq_true, if_false]
      rw [hmeta]
      have hlt : ¬(now - e.timestamp < ttlSecs cfg) := by omega
      simp [hlt]
    · have : cfg.cache_enabled = false := Bool.eq_false_iff.mpr hen
      simp [this]
  · unfold cleanup_old_cache
    by_cases hemp :
        (st.metadata.filter (expiredP now (ttlSecs cfg * (if force then 1 else 2)))).isEmpty = true
    · simp only [hemp, if_pos]
    · simp only [hemp, Bool.false_eq_true, if_false, save_metadata, if_pos]
  · intro p hp hexp
    unfold cleanup_old_cache
    by_cases hemp :
        (st.metadata.filter (expiredP now (ttlSecs cfg * (if force then 1 else 2)))).isEmpty = true
    · exfalso
      rw [List.isEmpty_iff] at hemp
      rw [List.filter_eq_nil_iff] at hemp
      exact (hemp p hp) hexp
    · simp only [hemp, Bool.false_eq_true, if_false, save_metadata, if_pos]
      exact foldl_cleanupFileStep_removes now _ unlinkOk hu st.metadata st.filesOnDisk p hp hexp
  · intro hne
    unfold cleanup_old_cache
    have hemp :
        (st.metadata.filter (expiredP now (ttlSecs cfg * (if force then 1 else 2)))).isEmpty = false := by
      rw [List.isEmpty_eq_false_iff_exists_mem]
      rcases List.exists_mem_of_ne_nil _ hne with ⟨x, hx⟩
      exact ⟨x, hx⟩
    simp only [hemp, Bool.false_eq_true, if_false, save_metadata, if_pos]
    refine ⟨?_, ?_, ?_⟩ <;> trivial
  · intro hnil
    unfold cleanup_old_cache
    have hemp :
        (st.metadata.filter (expiredP now (ttlSecs cfg * (if force then 1 else 2)))).isEmpty = true := by
      rw [hnil]; rfl
    simp only [hemp, if_pos]
    have hall : ∀ p ∈ st.metadata,
        expiredP now (ttlSecs cfg * (if force then 1 else 2)) p = false := by
      intro p hp
      rw [List.filter_eq_nil_iff] at hnil
      exact Bool.eq_false_iff.mpr (hnil p hp)
    rw [foldl_cleanupFileStep_id now _ unlinkOk st.metadata st.filesOnDisk hall]
    have hmd : st.metadata.filter
        (fun p => !(expiredP now (ttlSecs cfg * (if force then 1 else 2)) p)) = st.metadata := by
      rw [List.filter_eq_self]
      intro p hp
      rw [hall p hp]
      rfl
    rw [hmd]

/-- C8 witness: with TTL 6 hours, an entry five TTLs old is not returned
by lookup even though its file exists, and the aggressive sweep removes
it, its file, and persists the index once. -/
theorem c8_ttl_expiry_and_eviction_witness :
    (get_cached_path defaultConfig 200000 true
        ⟨[(("k").toList, ⟨("u").toList, ("k.png").toList, 100, ⟨true, none, false, none⟩⟩)],
         [], [("k.png").toList], 0⟩
        (("u").toList) ⟨true, none, false, none⟩ =
      (⟨[(("k").toList, ⟨("u").toList, ("k.png").toList, 100, ⟨true, none, false, none⟩⟩)],
        [], [("k.png").toList], 0⟩, .ok none)) ∨
    (cleanup_old_cache defaultConfig 200000 (fun _ => true) true
        ⟨[(("k").toList, ⟨("u").toList, ("k.png").toList, 100, ⟨true, none, false, none⟩⟩)],
         [], [("k.png").toList], 0⟩ true).1.metadata = [] ∧
    ("k.png").toList ∉ (cleanup_old_cache defaultConfig 200000 (fun _ => true) true
        ⟨[(("k").toList, ⟨("u").toList, ("k.png").toList, 100, ⟨true, none, false, none⟩⟩)],
         [], [("k.png").toList], 0⟩ true).1.filesOnDisk ∧
    (cleanup_old_cache defaultConfig 200000 (fun _ => true) true
        ⟨[(("k").toList, ⟨("u").toList, ("k.png").toList, 100, ⟨true, none, false, none⟩⟩)],
         [], [("k.png").toList], 0⟩ true).1.saveCount = 1 := by
  right
  have h := c8_ttl_expiry_and_eviction defaultConfig 200000
    ⟨[(("k").toList, ⟨("u").toList, ("k.png").toList, 100, ⟨true, none, false, none⟩⟩)],
     [], [("k.png").toList], 0⟩ (fun _ => true) true (fun _ => rfl)
  refine ⟨?_, ?_, ?_⟩
  · rw [h.2.1]; decide
  · exact h.2.2.1 _ (List.mem_cons_self _ _) (by decide)
  · exact (h.2.2.2.1 (by decide)).1

/-- C3 counterexample: the claim "on an entry-present-but-file-missing
lookup the entry is removed, the index persisted, None returned, and
lookup never raises" fails on the code at concrete inputs.  First
conjunct: with a fresh entry, a missing file and a failing index write,
`get_cached_path` propagates `CacheError` out of `_save_metadata`
(after deleting the entry in memory) instead of returning None.  Second
conjunct: an expired entry with a missing file is not pruned at all.
Third conjunct: with caching disabled the stale entry is also left in
place. -/
theorem c3_lookup_counterexample :
    ((get_cached_path defaultConfig 200 false
        ⟨[(get_cache_key (("u").toList) ⟨true, none, false, none⟩ 1920 1080,
           ⟨("u").toList, ("f.png").toList, 100, ⟨true, none, false, none⟩⟩)],
         [], [], 0⟩
        (("u").toList) ⟨true, none, false, none⟩).2 = .error .cacheError ∧
     (get_cached_path defaultConfig 200 false
        ⟨[(get_cache_key (("u").toList) ⟨true, none, false, none⟩ 1920 1080,
           ⟨("u").toList, ("f.png").toList, 100, ⟨true, none, false, none⟩⟩)],
         [], [], 0⟩
        (("u").toList) ⟨true, none, false, none⟩).1.metadata = []) ∧
    ((get_cached_path defaultConfig 100000 true
        ⟨[(get_cache_key (("u").toList) ⟨true, none, false, none⟩ 1920 1080,
           ⟨("u").toList, ("f.png").toList, 100, ⟨true, none, false, none⟩⟩)],
         [], [], 0⟩
        (("u").toList) ⟨true, none, false, none⟩).2 = .ok none ∧
     (get_cached_path defaultConfig 100000 true
        ⟨[(get_cache_key (("u").toList) ⟨true, none, false, none⟩ 1920 1080,
           ⟨("u").toList, ("f.png").toList, 100, ⟨true, none, false, none⟩⟩)],
         [], [], 0⟩
        (("u").toList) ⟨true, none, false, none⟩).1.metadata =
       [(get_cache_key (("u").toList) ⟨true, none, false, none⟩ 1920 1080,
         ⟨("u").toList, ("f.png").toList, 100, ⟨true, none, false, none⟩⟩)]) ∧
    ((get_cached_path { defaultConfig with cache_enabled := false } 200 true
        ⟨[(get_cache_key (("u").toList) ⟨true, none, false, none⟩ 1920 1080,
           ⟨("u").toList, ("f.png").toList, 100, ⟨true, none, false, none⟩⟩)],
         [], [], 0⟩
        (("u").toList) ⟨true, none, false, none⟩).1.metadata =
      [(get_cache_key (("u").toList) ⟨true, none, false, none⟩ 1920 1080,
        ⟨("u").toList, ("f.png").toList, 100, ⟨true, none, false, none⟩⟩)]) := by
  refine ⟨⟨?_, ?_⟩, ⟨?_, ?_⟩, ?_⟩ <;>
    simp [get_cached_path, metaLookup, metaErase, save_metadata, ttlSecs, defaultConfig]

/-- C3 (amended): on a lookup that finds an index entry whose artifact
file is missing, provided caching is enabled: if the entry is unexpired
and the index write succeeds, the entry is removed, the index persisted
immediately and None is returned; if the entry is unexpired but the
index write fails, a `CacheError` propagates (the entry having been
removed in memory only); if the entry has already expired, None is
returned and the entry is left in the index. -/
theorem c3_lookup_prune_amended (cfg : BrowserConfig) (now : Int) (saveOk : Bool)
    (st : CacheState) (url : List Char) (opts : CacheOptions) (e : CacheEntry)
    (hen : cfg.cache_enabled = true)
    (hmeta : metaLookup st.metadata
        (get_cache_key url opts cfg.viewport_width cfg.viewport_height) = some e)
    (hmiss : st.filesOnDisk.contains e.filename = false) :
    (now - e.timestamp < ttlSecs cfg → saveOk = true →
      get_cached_path cfg now saveOk st url opts =
        ({ st with
            metadata := metaErase st.metadata
              (get_cache_key url opts cfg.viewport_width cfg.viewport_height),
            diskIndex := metaErase st.metadata
              (get_cache_key url opts cfg.viewport_width cfg.viewport_height),
            saveCount := st.saveCount + 1 }, .ok none)) ∧
    (now - e.timestamp < ttlSecs cfg → saveOk = false →
      get_cached_path cfg now saveOk st url opts =
        ({ st with
            metadata := metaErase st.metadata
              (get_cache_key url opts cfg.viewport_width cfg.viewport_height) },
         .error .cacheError)) ∧
    (¬(now - e.timestamp < ttlSecs cfg) →
      get_cached_path cfg now saveOk st url opts = (st, .ok none)) := by
  have hmiss' : e.filename ∉ st.filesOnDisk := by simpa using hmiss
  refine ⟨?_, ?_, ?_⟩
  · intro hfresh hsv
    subst hsv
    unfold get_cached_path
    simp only [hen, Bool.not_true, Bool.false_eq_true, if_false]
    rw [hmeta]
    simp [hfresh, hmiss', save_metadata]
  · intro hfresh hsv
    subst hsv
    unfold get_cached_path
    simp only [hen, Bool.not_true, Bool.false_eq_true, if_false]
    rw [hmeta]
    simp [hfresh, hmiss', save_metadata]
  · intro hstale
    unfold get_cached_path
    simp only [hen, Bool.not_true, Bool.false_eq_true, if_false]
    rw [hmeta]
    simp [hstale]

/-- C3 witness: the successful-prune branch of the amended claim at a
concrete state — fresh entry, missing file, succeeding index write. -/
theorem c3_lookup_prune_amended_witness :
    get_cached_path defaultConfig 200 true
        ⟨[(get_cache_key (("u").toList) ⟨true, none, false, none⟩ defaultConfig.viewport_width defaultConfig.viewport_height,
           ⟨("u").toList, ("f.png").toList, 100, ⟨true, none, false, none⟩⟩)],
         [], [], 0⟩
        (("u").toList) ⟨true, none, false, none⟩ =
      (⟨metaErase
          [(get_cache_key (("u").toList) ⟨true, none, false, none⟩ defaultConfig.viewport_width defaultConfig.viewport_height,
            ⟨("u").toList, ("f.png").toList, 100, ⟨true, none, false, none⟩⟩)]
          (get_cache_key (("u").toList) ⟨true, none, false, none⟩ defaultConfig.viewport_width defaultConfig.viewport_height),
        metaErase
          [(get_cache_key (("u").toList) ⟨true, none, false, none⟩ defaultConfig.viewport_width defaultConfig.viewport_height,
            ⟨("u").toList, ("f.png").toList, 100, ⟨true, none, false, none⟩⟩)]
          (get_cache_key (("u").toList) ⟨true, none, false, none⟩ defaultConfig.viewport_width defaultConfig.viewport_height),
        [], 1⟩, .ok none) := by
  exact (c3_lookup_prune_amended defaultConfig 200 true
      ⟨[(get_cache_key (("u").toList) ⟨true, none, false, none⟩ defaultConfig.viewport_width defaultConfig.viewport_height,
         ⟨("u").toList, ("f.png").toList, 100, ⟨true, none, false, none⟩⟩)],
       [], [], 0⟩
      (("u").toList) ⟨true, none, false, none⟩
      ⟨("u").toList, ("f.png").toList, 100, ⟨true, none, false, none⟩⟩
      rfl (by simp [metaLookup]) rfl).1 (by decide) rfl

/-! ### Capture orchestrator retry loop (core.py, `capture_screenshot`)

Lines 94-184 of core.py: the bounded retry loop after the cache check and
output-path resolution.  Each attempt acquires a context, opens a page,
navigates, waits, and captures; the renderer's behaviour per attempt is
an oracle `AttemptW`.  Classified failures (`BrowserError` subclasses:
Navigation, Timeout, ElementNotFound, Screenshot, and engine-launch
Browser errors) are re-raised by `except BrowserError: raise`; every
other exception falls into `except Exception`, which retries, or returns
the soft `None` on the last attempt.  The `finally` block closes the page
opened by the attempt.  The loop result is paired with a trace counting
attempts started, navigations performed, pages opened and pages closed.
-/

inductive CaptureErr where
  | navigation
  | timeout
  | elementNotFound
  | screenshot
  | browser
deriving DecidableEq

structure AttemptW where
  /-- `browser_manager.get_context()` returns normally. -/
  ctxOk : Bool
  /-- when `ctxOk = false`: the raised exception is a `BrowserError`
  (engine launch failure) rather than an unclassified one. -/
  ctxErrClassified : Bool
  /-- `context.new_page(...)` succeeds (its failure is unclassified). -/
  newPageOk : Bool
  /-- `page.goto` succeeds; failure raises `NavigationError`. -/
  gotoOk : Bool
  /-- outcome of `page.wait_for_selector` for the i-th wait selector;
  the first failure raises `TimeoutError`. -/
  waitOk : Nat → Bool
  /-- `page.wait_for_timeout(extra_wait)` succeeds (failure unclassified). -/
  extraWaitOk : Bool
  /-- `page.query_selector(selector)` finds the element; absence raises
  `ElementNotFoundError`. -/
  queryFound : Bool
  /-- `element.screenshot` succeeds; failure raises `ScreenshotError`. -/
  elemShotOk : Bool
  /-- `page.screenshot` succeeds; failure raises `ScreenshotError`. -/
  pageShotOk : Bool

/-- One attempt body (the `try` block of the loop).  Returns the attempt
outcome — `.ok ()` success, `.error (some e)` a classified error,
`.error none` an unclassified exception — together with the number of
navigations performed (0 or 1) and pages opened (0 or 1) by the attempt. -/
def runAttempt (hasSel : Bool) (waitN : Nat) (hasExtra : Bool) (w : AttemptW) :
    Except (Option CaptureErr) Unit × Nat × Nat :=
  if !w.ctxOk then
    (if w.ctxErrClassified then .error (some .browser) else .error none, 0, 0)
  else if !w.newPageOk then (.error none, 0, 0)
  else if !w.gotoOk then (.error (some .navigation), 1, 1)
  else
    match (List.range waitN).find? (fun i => !w.waitOk i) with
    | some _ => (.error (some .timeout), 1, 1)
    | none =>
      if hasExtra && !w.extraWaitOk then (.error none, 1, 1)
      else if hasSel then
        if !w.queryFound then (.error (some .elementNotFound), 1, 1)
        else if !w.elemShotOk then (.error (some .screenshot), 1, 1)
        else (.ok (), 1, 1)
      else if !w.pageShotOk then (.error (some .screenshot), 1, 1)
      else (.ok (), 1, 1)

structure Trace where
  attempts : Nat
  navs : Nat
  opened : Nat
  closedPages : Nat
deriving DecidableEq

/-- The `for attempt in range(max_retries)` loop of `capture_screenshot`.
`k` is the index of the next attempt, `fuel` the number of attempts
remaining; `fuel = 0` at entry models `max_retries = 0`, where the loop
body never runs and the function falls through returning `None`.  The
`finally` block closes whatever page the attempt opened, counted in the
trace. -/
def captureLoop (hasSel : Bool) (waitN : Nat) (hasExtra : Bool)
    (world : Nat → AttemptW) (out : List Char) :
    Nat → Nat → Trace → Except CaptureErr (Option (List Char)) × Trace
  | _, 0, tr => (.ok none, tr)
  | k, fuel + 1, tr =>
    let r := runAttempt hasSel waitN hasExtra (world k)
    let tr' : Trace :=
      ⟨tr.attempts + 1, tr.navs + r.2.1, tr.opened + r.2.2, tr.closedPages + r.2.2⟩
    match r.1 with
    | .ok _ => (.ok (some out), tr')
    | .error (some e) => (.error e, tr')
    | .error none =>
      if fuel = 0 then (.ok none, tr')
      else captureLoop hasSel waitN hasExtra world out (k + 1) fuel tr'

/-- The retry loop as entered by `capture_screenshot`: first attempt 0,
`max_retries` attempts allowed, empty trace. -/
def capture_screenshot_loop (cfg : BrowserConfig) (hasSel : Bool) (waitN : Nat)
    (hasExtra : Bool) (world : Nat → AttemptW) (out : List Char) :
    Except CaptureErr (Option (List Char)) × Trace :=
  captureLoop hasSel waitN hasExtra world out 0 cfg.max_retries ⟨0, 0, 0, 0⟩

theorem runAttempt_navs_le_one (hasSel : Bool) (waitN : Nat) (hasExtra : Bool)
    (w : AttemptW) : (runAttempt hasSel waitN hasExtra w).2.1 ≤ 1 := by
  unfold runAttempt
  repeat' split
  all_goals simp

theorem captureLoop_closes (hasSel : Bool) (waitN : Nat) (hasExtra : Bool)
    (world : Nat → AttemptW) (out : List Char) :
    ∀ (fuel k : Nat) (tr : Trace), tr.opened = tr.closedPages →
      (captureLoop hasSel waitN hasExtra world out k fuel tr).2.opened =
        (captureLoop hasSel waitN hasExtra world out k fuel tr).2.closedPages := by
  intro fuel
  induction fuel with
  | zero => intro k tr h; simpa [captureLoop] using h
  | succ f ih =>
    intro k tr h
    rcases hres : (runAttempt hasSel waitN hasExtra (world k)).1 with oe | u
    · rcases oe with e | _
      · by_cases hf : f = 0
        · subst hf
          simp [captureLoop, hres, h]
        · simp only [captureLoop, hres, hf, if_false]
          exact ih (k + 1) _ (by simp [h])
      · simp [captureLoop, hres, h]
    · simp [captureLoop, hres, h]

theorem captureLoop_all_unclassified (hasSel : Bool) (waitN : Nat) (hasExtra : Bool)
    (world : Nat → AttemptW) (out : List Char) :
    ∀ (fuel k : Nat) (tr : Trace),
      (∀ j < fuel, (runAttempt hasSel waitN hasExtra (world (k + j))).1 = .error none) →
      (captureLoop hasSel waitN hasExtra world out k fuel tr).1 = .ok none ∧
      (captureLoop hasSel waitN hasExtra world out k fuel tr).2.attempts =
        tr.attempts + fuel := by
  intro fuel
  induction fuel with
  | zero => intro k tr _; exact ⟨rfl, by simp [captureLoop]⟩
  | succ f ih =>
    intro k tr h
    have h0 : (runAttempt hasSel waitN hasExtra (world k)).1 = .error none := by
      have := h 0 (by omega)
      rwa [Nat.add_zero] at this
    by_cases hf : f = 0
    · subst hf
      simp [captureLoop, h0]
    · simp only [captureLoop, h0, hf, if_false]
      have hrec := ih (k + 1) ⟨tr.attempts + 1,
          tr.navs + (runAttempt hasSel waitN hasExtra (world k)).2.1,
          tr.opened + (runAttempt hasSel waitN hasExtra (world k)).2.2,
          tr.closedPages + (runAttempt hasSel waitN hasExtra (world k)).2.2⟩
        (fun j hj => by
          have := h (j + 1) (by omega)
          rwa [show k + (j + 1) = k + 1 + j by omega] at this)
      refine ⟨hrec.1, ?_⟩
      rw [hrec.2]
      dsimp only
      omega

theorem captureLoop_success (hasSel : Bool) (waitN : Nat) (hasExtra : Bool)
    (world : Nat → AttemptW) (out : List Char) :
    ∀ (m fuel k : Nat) (tr : Trace), m < fuel →
      (∀ j < m, (runAttempt hasSel waitN hasExtra (world (k + j))).1 = .error none) →
      (runAttempt hasSel waitN hasExtra (world (k + m))).1 = .ok () →
      (captureLoop hasSel waitN hasExtra world out k fuel tr).1 = .ok (some out) := by
  intro m
  induction m with
  | zero =>
    intro fuel k tr hfuel hpref hsucc
    rw [Nat.add_zero] at hsucc
    match fuel, hfuel with
    | f + 1, _ => simp [captureLoop, hsucc]
  | succ m' ih =>
    intro fuel k tr hfuel hpref hsucc
    match fuel, hfuel with
    | f + 1, hfuel =>
      have h0 : (runAttempt hasSel waitN hasExtra (world k)).1 = .error none := by
        have := hpref 0 (by omega)
        rwa [Nat.add_zero] at this
      have hf : f ≠ 0 := by omega
      simp only [captureLoop, h0, hf, if_false]
      apply ih f (k + 1) _ (by omega)
      · intro j hj
        have := hpref (j + 1) (by omega)
        rwa [show k + (j + 1) = k + 1 + j by omega] at this
      · rwa [show k + 1 + m' = k + (m' + 1) by omega]

theorem captureLoop_classified (hasSel : Bool) (waitN : Nat) (hasExtra : Bool)
    (world : Nat → AttemptW) (out : List Char) (e : CaptureErr) :
    ∀ (k fuel k0 : Nat) (tr : Trace), k < fuel →
      (∀ j < k, (runAttempt hasSel waitN hasExtra (world (k0 + j))).1 = .error none) →
      (runAttempt hasSel waitN hasExtra (world (k0 + k))).1 = .error (some e) →
      (captureLoop hasSel waitN hasExtra world out k0 fuel tr).1 = .error e ∧
      (captureLoop hasSel waitN hasExtra world out k0 fuel tr).2.attempts =
        tr.attempts + k + 1 ∧
      (captureLoop hasSel waitN hasExtra world out k0 fuel tr).2.navs ≤
        tr.navs + k + 1 := by
  intro k
  induction k with
  | zero =>
    intro fuel k0 tr hfuel hpref hcls
    rw [Nat.add_zero] at hcls
    match fuel, hfuel with
    | f + 1, _ =>
      refine ⟨by simp [captureLoop, hcls], by simp [captureLoop, hcls], ?_⟩
      have := runAttempt_navs_le_one hasSel waitN hasExtra (world k0)
      simp [captureLoop, hcls]
      omega
  | succ k' ih =>
    intro fuel k0 tr hfuel hpref hcls
    match fuel, hfuel with
    | f + 1, hfuel =>
      have h0 : (runAttempt hasSel waitN hasExtra (world k0)).1 = .error none := by
        have := hpref 0 (by omega)
        rwa [Nat.add_zero] at this
      have hf : f ≠ 0 := by omega
      simp only [captureLoop, h0, hf, if_false]
      have hrec := ih f (k0 + 1) ⟨tr.attempts + 1,
          tr.navs + (runAttempt hasSel waitN hasExtra (world k0)).2.1,
          tr.opened + (runAttempt hasSel waitN hasExtra (world k0)).2.2,
          tr.closedPages + (runAttempt hasSel waitN hasExtra (world k0)).2.2⟩
        (by omega)
        (fun j hj => by
          have := hpref (j + 1) (by omega)
          rwa [show k0 + (j + 1) = k0 + 1 + j by omega] at this)
        (by rwa [show k0 + 1 + k' = k0 + (k' + 1) by omega])
      have hn := runAttempt_navs_le_one hasSel waitN hasExtra (world k0)
      refine ⟨hrec.1, ?_, ?_⟩
      · rw [hrec.2.1]; dsimp only; omega
      · have h2 := hrec.2.2; dsimp only at h2; omega

/-- C4: a classified error (Navigation, Timeout, ElementNotFound,
Screenshot, or engine Browser error) raised during any attempt of the
retry loop propagates immediately as an exception: no further attempt is
started, and the error is never converted into the soft None result.  In
particular, when the very first attempt fails at navigation, the call
raises after exactly the one navigation that failed. -/
theorem c4_classified_errors_propagate (cfg : BrowserConfig) (hasSel : Bool)
    (waitN : Nat) (hasExtra : Bool) (world : Nat → AttemptW) (out : List Char)
    (k : Nat) (e : CaptureErr)
    (hk : k < cfg.max_retries)
    (hpref : ∀ j < k, (runAttempt hasSel waitN hasExtra (world j)).1 = .error none)
    (hcls : (runAttempt hasSel waitN hasExtra (world k)).1 = .error (some e)) :
    (capture_screenshot_loop cfg hasSel waitN hasExtra world out).1 = .error e ∧
    (capture_screenshot_loop cfg hasSel waitN hasExtra world out).2.attempts = k + 1 ∧
    (capture_screenshot_loop cfg hasSel waitN hasExtra world out).2.navs ≤ k + 1 ∧
    (k = 0 →
      (capture_screenshot_loop cfg hasSel waitN hasExtra world out).2.navs =
        (runAttempt hasSel waitN hasExtra (world 0)).2.1) := by
  have hmain := captureLoop_classified hasSel waitN hasExtra world out e
    k cfg.max_retries 0 ⟨0, 0, 0, 0⟩ hk
    (fun j hj => by simpa using hpref j hj)
    (by simpa using hcls)
  refine ⟨hmain.1, by simpa using hmain.2.1, by simpa using hmain.2.2, ?_⟩
  intro hk0
  subst hk0
  unfold capture_screenshot_loop
  match hmr : cfg.max_retries, hk with
  | f + 1, _ => simp [captureLoop, hcls]

/-- C5: when every attempt fails with an unclassified exception the loop
returns the soft None sentinel (not an exception) after exactly
`max_retries` attempts; when the first `max_retries − 1` attempts fail
unclassified and the last succeeds, the loop returns the output path;
and in every execution each page opened by an attempt is closed by the
attempt's `finally` block. -/
theorem c5_soft_failure_retry_and_page_close (cfg : BrowserConfig) (hasSel : Bool)
    (waitN : Nat) (hasExtra : Bool) (world : Nat → AttemptW) (out : List Char) :
    ((∀ j < cfg.max_retries,
        (runAttempt hasSel waitN hasExtra (world j)).1 = .error none) →
      (capture_screenshot_loop cfg hasSel waitN hasExtra world out).1 = .ok none ∧
      (capture_screenshot_loop cfg hasSel waitN hasExtra world out).2.attempts =
        cfg.max_retries) ∧
    (∀ m, cfg.max_retries = m + 1 →
      (∀ j < m, (runAttempt hasSel waitN hasExtra (world j)).1 = .error none) →
      (runAttempt hasSel waitN hasExtra (world m)).1 = .ok () →
      (capture_screenshot_loop cfg hasSel waitN hasExtra world out).1 =
        .ok (some out)) ∧
    (capture_screenshot_loop cfg hasSel waitN hasExtra world out).2.opened =
      (capture_screenshot_loop cfg hasSel waitN hasExtra world out).2.closedPages := by
  refine ⟨?_, ?_, ?_⟩
  · intro hall
    have h := captureLoop_all_unclassified hasSel waitN hasExtra world out
      cfg.max_retries 0 ⟨0, 0, 0, 0⟩ (fun j hj => by simpa using hall j hj)
    exact ⟨h.1, by simpa using h.2⟩
  · intro m hm hpref hsucc
    exact captureLoop_success hasSel waitN hasExtra world out m cfg.max_retries 0
      ⟨0, 0, 0, 0⟩ (by omega) (fun j hj => by simpa using hpref j hj)
      (by simpa using hsucc)
  · exact captureLoop_closes hasSel waitN hasExtra world out cfg.max_retries 0
      ⟨0, 0, 0, 0⟩ rfl

/-- C4 witness: a navigation failure on the first attempt raises the
Navigation error after exactly one attempt and one navigation. -/
theorem c4_classified_errors_propagate_witness :
    (capture_screenshot_loop defaultConfig false 0 false
        (fun _ => ⟨true, false, true, false, fun _ => true, true, true, true, true⟩)
        (("o").toList)).1 = .error .navigation ∧
    (capture_screenshot_loop defaultConfig false 0 false
        (fun _ => ⟨true, false, true, false, fun _ => true, true, true, true, true⟩)
        (("o").toList)).2.attempts = 1 ∧
    (capture_screenshot_loop defaultConfig false 0 false
        (fun _ => ⟨true, false, true, false, fun _ => true, true, true, true, true⟩)
        (("o").toList)).2.navs = 1 := by
  have h := c4_classified_errors_propagate defaultConfig false 0 false
    (fun _ => ⟨true, false, true, false, fun _ => true, true, true, true, true⟩)
    (("o").toList) 0 .navigation (by decide)
    (fun j hj => absurd hj (by omega)) rfl
  refine ⟨h.1, h.2.1, ?_⟩
  rw [h.2.2.2 rfl]
  decide

/-- C5 witness: with `max_retries = 2`, two unclassified failures give
the soft None after two attempts; an unclassified failure then a success
gives the output path; pages opened equal pages closed. -/
theorem c5_soft_failure_retry_and_page_close_witness :
    ((capture_screenshot_loop defaultConfig false 0 false
        (fun _ => ⟨false, false, true, true, fun _ => true, true, true, true, true⟩)
        (("o").toList)).1 = .ok none ∧
     (capture_screenshot_loop defaultConfig false 0 false
        (fun _ => ⟨false, false, true, true, fun _ => true, true, true, true, true⟩)
        (("o").toList)).2.attempts = 2) ∧
    (capture_screenshot_loop defaultConfig false 0 false
        (fun i => if i = 0 then ⟨false, false, true, true, fun _ => true, true, true, true, true⟩
          else ⟨true, false, true, true, fun _ => true, true, true, true, true⟩)
        (("o").toList)).1 = .ok (some (("o").toList)) ∧
    (capture_screenshot_loop defaultConfig false 0 false
        (fun i => if i = 0 then ⟨false, false, true, true, fun _ => true, true, true, true, true⟩
          else ⟨true, false, true, true, fun _ => true, true, true, true, true⟩)
        (("o").toList)).2.opened =
      (capture_screenshot_loop defaultConfig false 0 false
        (fun i => if i = 0 then ⟨false, false, true, true, fun _ => true, true, true, true, true⟩
          else ⟨true, false, true, true, fun _ => true, true, true, true, true⟩)
        (("o").toList)).2.closedPages := by
  refine ⟨?_, ?_, ?_⟩
  · exact (c5_soft_failure_retry_and_page_close defaultConfig false 0 false
      (fun _ => ⟨false, false, true, true, fun _ => true, true, true, true, true⟩)
      (("o").toList)).1 (fun j _ => rfl)
  · exact (c5_soft_failure_retry_and_page_close defaultConfig false 0 false
      (fun i => if i = 0 then ⟨false, false, true, true, fun _ => true, true, true, true, true⟩
        else ⟨true, false, true, true, fun _ => true, true, true, true, true⟩)
      (("o").toList)).2.1 1 rfl
      (fun j hj => by
        have hj0 : j = 0 := by omega
        subst hj0
        rfl) rfl
  · exact (c5_soft_failure_retry_and_page_close defaultConfig false 0 false
      (fun i => if i = 0 then ⟨false, false, true, true, fun _ => true, true, true, true, true⟩
        else ⟨true, false, true, true, fun _ => true, true, true, true, true⟩)
      (("o").toList)).2.2

/-! ### Data extraction (core.py, `browse_and_extract`)

Lines 187-273: navigate, optionally wait, then for each (name, selector)
pair run `query_selector_all` and store either None (no match), the
single element's stripped text, the ordered list of stripped texts, or —
when anything raised inside the per-field `try` — the inline string
`f"Error: {e}"`.  `text_content()` may return Python `None`, in which
case `.strip()` raises `AttributeError`, also captured per field (the
exact Python message text is abbreviated to a fixed constant here).  The
outer `try/except` turns any navigation/wait/screenshot failure into the
result's error field; the `finally` closes the page when one was opened.
The Boolean paired with the result records whether the page was closed.
-/

inductive ExtractVal where
  | nullV
  | scalarV (s : List Char)
  | listV (l : List (List Char))
  | errV (m : List Char)
deriving DecidableEq

inductive QueryOutcome where
  /-- `query_selector_all` (or the per-field processing) raises with message `msg`. -/
  | qraises (msg : List Char)
  /-- the matched elements, each with its `text_content()` result. -/
  | qelems (texts : List (Option (List Char)))

/-- Python `str.strip()`: remove leading and trailing whitespace. -/
def stripStr (s : List Char) : List Char :=
  ((s.dropWhile Char.isWhitespace).reverse.dropWhile Char.isWhitespace).reverse

def errPrefix : List Char := ("Error: ").toList

/-- Stands for the `AttributeError` message raised by `None.strip()`. -/
def attrErrMsg : List Char :=
  ("Error: NoneType object has no attribute strip").toList

/-- Strip every text; `none` when some element's `text_content()` was
Python None, making the list comprehension raise. -/
def stripAllTexts : List (Option (List Char)) → Option (List (List Char))
  | [] => some []
  | some t :: rest => (stripAllTexts rest).map (fun l => stripStr t :: l)
  | none :: _ => none

/-- Per-field processing, core.py lines 242-252. -/
def extractField (q : QueryOutcome) : ExtractVal :=
  match q with
  | .qraises m => .errV (errPrefix ++ m)
  | .qelems [] => .nullV
  | .qelems [some t] => .scalarV (stripStr t)
  | .qelems [none] => .errV attrErrMsg
  | .qelems ts =>
    match stripAllTexts ts with
    | some l => .listV l
    | none => .errV attrErrMsg

structure ExtractW where
  /-- message of the exception raised by `get_context`, if any. -/
  ctxErr : Option (List Char)
  /-- message of the exception raised by `context.new_page()`, if any. -/
  pageErr : Option (List Char)
  /-- message of the exception raised by `page.goto`, if any. -/
  navErr : Option (List Char)
  /-- message of the exception raised by `wait_for_selector`, if any. -/
  waitErr : Option (List Char)
  /-- renderer answer for each selector. -/
  query : List Char → QueryOutcome
  /-- message of the exception raised by `page.screenshot`, if any. -/
  shotErr : Option (List Char)

structure BrowseResult where
  extracted : List (List Char × ExtractVal)
  errField : Option (List Char)
  shot : Option (List Char)
deriving DecidableEq

/-- `browse_and_extract`, core.py lines 187-273.  Returns the result
dictionary (url and timestamp fields omitted) and whether the page was
closed on the way out.  The function never raises: every failure is
recorded in the result. -/
def browse_and_extract (w : ExtractW) (sels : List (List Char × List Char))
    (wait_for : Option (List Char)) (wantShot : Bool) (shotPath : List Char) :
    BrowseResult × Bool :=
  match w.ctxErr with
  | some m => (⟨[], some m, none⟩, false)
  | none =>
    match w.pageErr with
    | some m => (⟨[], some m, none⟩, false)
    | none =>
      match w.navErr with
      | some m => (⟨[], some m, none⟩, true)
      | none =>
        match wait_for, w.waitErr with
        | some _, some m => (⟨[], some m, none⟩, true)
        | _, _ =>
          let ext := sels.map (fun p => (p.1, extractField (w.query p.2)))
          if wantShot then
            match w.shotErr with
            | some m => (⟨ext, some m, none⟩, true)
            | none => (⟨ext, none, some shotPath⟩, true)
          else (⟨ext, none, none⟩, true)

theorem stripAllTexts_all_some (ts : List (Option (List Char)))
    (h : ∀ x ∈ ts, x ≠ none) :
    stripAllTexts ts = some (ts.map (fun o => stripStr (o.getD []))) := by
  induction ts with
  | nil => rfl
  | cons x rest ih =>
    match x with
    | none => exact absurd rfl (h none (List.mem_cons_self _ _))
    | some t =>
      simp only [stripAllTexts, List.map_cons, Option.getD_some]
      rw [ih (fun y hy => h y (List.mem_cons_of_mem _ hy))]
      rfl

/-- C9: with navigation (and optional wait) succeeding, the extraction
result lists one value per requested field in the caller's order: zero
matches give None, one match gives the element's stripped text as a
scalar, several matches give the ordered list of stripped texts, and any
per-field exception becomes an inline `"Error: ..."` string without
aborting the remaining fields; the call returns a result rather than
raising for every renderer behaviour. -/
theorem c9_extract_preserves_order_and_isolates_errors (w : ExtractW)
    (sels : List (List Char × List Char)) (wait_for : Option (List Char))
    (wantShot : Bool) (shotPath : List Char)
    (hctx : w.ctxErr = none) (hpage : w.pageErr = none) (hnav : w.navErr = none)
    (hwait : wait_for = none ∨ w.waitErr = none) :
    (browse_and_extract w sels wait_for wantShot shotPath).1.extracted =
      sels.map (fun p => (p.1, extractField (w.query p.2))) ∧
    (browse_and_extract w sels wait_for wantShot shotPath).1.extracted.map
        (fun p => p.1) = sels.map (fun p => p.1) ∧
    extractField (.qelems []) = .nullV ∧
    (∀ t, extractField (.qelems [some t]) = .scalarV (stripStr t)) ∧
    (∀ ts, 2 ≤ ts.length → (∀ x ∈ ts, x ≠ none) →
      extractField (.qelems ts) =
        .listV (ts.map (fun o => stripStr (o.getD [])))) ∧
    (∀ m, extractField (.qraises m) = .errV (errPrefix ++ m)) := by
  have hext : (browse_and_extract w sels wait_for wantShot shotPath).1.extracted =
      sels.map (fun p => (p.1, extractField (w.query p.2))) := by
    unfold browse_and_extract
    rw [hctx, hpage, hnav]
    rcases hwait with h | h
    · subst h
      by_cases hs : wantShot = true
      · subst hs
        match hshot : w.shotErr with
        | some m => simp
        | none => simp
      · have hs' : wantShot = false := Bool.eq_false_iff.mpr hs
        subst hs'
        simp
    · rw [h]
      match wait_for with
      | none =>
        by_cases hs : wantShot = true
        · subst hs
          match hshot : w.shotErr with
          | some m => simp
          | none => simp
        · have hs' : wantShot = false := Bool.eq_false_iff.mpr hs
          subst hs'
          simp
      | some ws =>
        by_cases hs : wantShot = true
        · subst hs
          match hshot : w.shotErr with
          | some m => simp
          | none => simp
        · have hs' : wantShot = false := Bool.eq_false_iff.mpr hs
          subst hs'
          simp
  refine ⟨hext, ?_, rfl, fun t => rfl, ?_, fun m => rfl⟩
  · rw [hext, List.map_map]
    rfl
  · intro ts hlen hsome
    match ts, hlen with
    | x :: y :: rest, _ =>
      have := stripAllTexts_all_some (x :: y :: rest) hsome
      match x, hsome x (List.mem_cons_self _ _) with
      | some tx, _ =>
        match y, hsome y (List.mem_cons_of_mem _ (List.mem_cons_self _ _)) with
        | some ty, _ =>
          simp only [extractField]
          rw [this]

/-- C9 witness: fields A (one match), B (two matches), C (query raises)
produce a scalar, an ordered list, and an inline error, in order. -/
theorem c9_extract_preserves_order_and_isolates_errors_witness :
    (browse_and_extract
        ⟨none, none, none, none,
         (fun s =>
           if s = ("#a").toList then .qelems [some ((" x ").toList)]
           else if s = ("#b").toList then
             .qelems [some (("p").toList), some (("q").toList)]
           else .qraises (("boom").toList)),
         none⟩
        [(("A").toList, ("#a").toList), (("B").toList, ("#b").toList),
         (("C").toList, ("#c").toList)]
        none false (("s.png").toList)).1.extracted =
      [(("A").toList, .scalarV (("x").toList)),
       (("B").toList, .listV [("p").toList, ("q").toList]),
       (("C").toList, .errV (("Error: boom").toList))] := by
  rw [(c9_extract_preserves_order_and_isolates_errors _ _ _ _ _
    rfl rfl rfl (Or.inl rfl)).1]
  decide

/-! ### Injectivity of the cache-key serialization (for C7)

`unesc` is a decoder for the JSON `ensure_ascii` escaping: it is a left
inverse of `jsonEscape`, which makes the escaping injective, so that two
serialized key strings agree only when the underlying fields agree. -/

def hexVal (c : Char) : Option Nat :=
  if 48 ≤ c.toNat ∧ c.toNat ≤ 57 then some (c.toNat - 48)
  else if 97 ≤ c.toNat ∧ c.toNat ≤ 102 then some (c.toNat - 87)
  else none

def hexVal4 (a b c d : Char) : Option Nat :=
  match hexVal a, hexVal b, hexVal c, hexVal d with
  | some d3, some d2, some d1, some d0 => some (d3 * 4096 + d2 * 256 + d1 * 16 + d0)
  | _, _, _, _ => none

/-- Decoder for the escaping, structurally recursive on a fuel bound;
one unit of fuel per decoded character. -/
def unescF : Nat → List Char → Option (List Char)
  | 0, _ => none
  | _ + 1, [] => some []
  | fuel + 1, c :: t =>
    if c = '\\' then
      match t with
      | [] => none
      | e :: t2 =>
        if e = '"' then (unescF fuel t2).map (fun l => '"' :: l)
        else if e = '\\' then (unescF fuel t2).map (fun l => '\\' :: l)
        else if e = 'b' then (unescF fuel t2).map (fun l => Char.ofNat 8 :: l)
        else if e = 'f' then (unescF fuel t2).map (fun l => Char.ofNat 12 :: l)
        else if e = 'n' then (unescF fuel t2).map (fun l => Char.ofNat 10 :: l)
        else if e = 'r' then (unescF fuel t2).map (fun l => Char.ofNat 13 :: l)
        else if e = 't' then (unescF fuel t2).map (fun l => Char.ofNat 9 :: l)
        else if e = 'u' then
          match t2 with
          | a :: b :: c1 :: d :: r =>
            match hexVal4 a b c1 d with
            | none => none
            | some n =>
              if 55296 ≤ n ∧ n < 56320 then
                match r with
                | bs :: u2 :: a2 :: b2 :: c2 :: d2 :: r2 =>
                  if bs = '\\' ∧ u2 = 'u' then
                    match hexVal4 a2 b2 c2 d2 with
                    | none => none
                    | some m =>
                      if 56320 ≤ m ∧ m < 57344 then
                        (unescF fuel r2).map (fun l =>
                          Char.ofNat (65536 + (n - 55296) * 1024 + (m - 56320)) :: l)
                      else none
                  else none
                | _ => none
              else if 56320 ≤ n ∧ n < 57344 then none
              else (unescF fuel r).map (fun l => Char.ofNat n :: l)
          | _ => none
        else none
    else (unescF fuel t).map (fun l => c :: l)

theorem hexVal_hexDig : ∀ d < 16, hexVal (hexDig d) = some d := by decide

theorem char_valid_ranges (c : Char) :
    c.toNat < 55296 ∨ (57343 < c.toNat ∧ c.toNat < 1114112) := by
  have h := c.valid
  unfold UInt32.isValidChar Nat.isValidChar at h
  have he : c.toNat = c.val.toNat := rfl
  omega

theorem hexVal4_hex4 (n : Nat) (h : n < 65536) :
    hexVal4 (hexDig (n / 4096 % 16)) (hexDig (n / 256 % 16)) (hexDig (n / 16 % 16))
      (hexDig (n % 16)) = some n := by
  unfold hexVal4
  rw [hexVal_hexDig _ (by omega), hexVal_hexDig _ (by omega), hexVal_hexDig _ (by omega),
    hexVal_hexDig _ (by omega)]
  dsimp only
  congr 1
  omega

/-- Transcription of the `\u` arm of `unescF` (definitional). -/
theorem unescF_cons_u (fuel : Nat) (a b c1 d : Char) (r : List Char) :
    unescF (fuel + 1) ('\\' :: 'u' :: a :: b :: c1 :: d :: r) =
      (match hexVal4 a b c1 d with
      | none => none
      | some n =>
        if 55296 ≤ n ∧ n < 56320 then
          match r with
          | bs :: u2 :: a2 :: b2 :: c2 :: d2 :: r2 =>
            if bs = '\\' ∧ u2 = 'u' then
              match hexVal4 a2 b2 c2 d2 with
              | none => none
              | some m =>
                if 56320 ≤ m ∧ m < 57344 then
                  (unescF fuel r2).map (fun l =>
                    Char.ofNat (65536 + (n - 55296) * 1024 + (m - 56320)) :: l)
                else none
            else none
          | _ => none
        else if 56320 ≤ n ∧ n < 57344 then none
        else (unescF fuel r).map (fun l => Char.ofNat n :: l)) := rfl

theorem unescF_escChar (fuel : Nat) (c : Char) (r : List Char) :
    unescF (fuel + 1) (escChar c ++ r) = (unescF fuel r).map (fun l => c :: l) := by
  by_cases h1 : c = '"'
  · subst h1; rfl
  by_cases h2 : c = '\\'
  · subst h2; rfl
  by_cases h3 : c.toNat = 8
  · have hc : c = Char.ofNat 8 := by rw [← h3, Char.ofNat_toNat]
    unfold escChar
    rw [if_neg h1, if_neg h2, if_pos h3, hc]
    rfl
  by_cases h4 : c.toNat = 12
  · have hc : c = Char.ofNat 12 := by rw [← h4, Char.ofNat_toNat]
    unfold escChar
    rw [if_neg h1, if_neg h2, if_neg h3, if_pos h4, hc]
    rfl
  by_cases h5 : c.toNat = 10
  · have hc : c = Char.ofNat 10 := by rw [← h5, Char.ofNat_toNat]
    unfold escChar
    rw [if_neg h1, if_neg h2, if_neg h3, if_neg h4, if_pos h5, hc]
    rfl
  by_cases h6 : c.toNat = 13
  · have hc : c = Char.ofNat 13 := by rw [← h6, Char.ofNat_toNat]
    unfold escChar
    rw [if_neg h1, if_neg h2, if_neg h3, if_neg h4, if_neg h5, if_pos h6, hc]
    rfl
  by_cases h7 : c.toNat = 9
  · have hc : c = Char.ofNat 9 := by rw [← h7, Char.ofNat_toNat]
    unfold escChar
    rw [if_neg h1, if_neg h2, if_neg h3, if_neg h4, if_neg h5, if_neg h6, if_pos h7, hc]
    rfl
  have hval := char_valid_ranges c
  by_cases h8 : c.toNat < 32
  · have hesc : escChar c = '\\' :: 'u' :: hex4 c.toNat := by
      unfold escChar
      rw [if_neg h1, if_neg h2, if_neg h3, if_neg h4, if_neg h5, if_neg h6, if_neg h7,
        if_pos h8]
    rw [hesc]
    simp only [hex4, List.cons_append, List.nil_append]
    rw [unescF_cons_u, hexVal4_hex4 c.toNat (by omega)]
    dsimp only
    rw [if_neg (by omega), if_neg (by omega), Char.ofNat_toNat]
  by_cases h9 : c.toNat ≤ 126
  · have hesc : escChar c = [c] := by
      unfold escChar
      rw [if_neg h1, if_neg h2, if_neg h3, if_neg h4, if_neg h5, if_neg h6, if_neg h7,
        if_neg h8, if_pos h9]
    rw [hesc]
    simp only [List.cons_append, List.nil_append, unescF]
    rw [if_neg h2]
    rfl
  by_cases h10 : c.toNat ≤ 65535
  · have hesc : escChar c = '\\' :: 'u' :: hex4 c.toNat := by
      unfold escChar
      rw [if_neg h1, if_neg h2, if_neg h3, if_neg h4, if_neg h5, if_neg h6, if_neg h7,
        if_neg h8, if_neg h9, if_pos h10]
    rw [hesc]
    simp only [hex4, List.cons_append, List.nil_append]
    rw [unescF_cons_u, hexVal4_hex4 c.toNat (by omega)]
    dsimp only
    rw [if_neg (by omega), if_neg (by omega), Char.ofNat_toNat]
  · have hesc : escChar c =
        ('\\' :: 'u' :: hex4 (55296 + (c.toNat - 65536) / 1024)) ++
        ('\\' :: 'u' :: hex4 (56320 + (c.toNat - 65536) % 1024)) := by
      unfold escChar
      rw [if_neg h1, if_neg h2, if_neg h3, if_neg h4, if_neg h5, if_neg h6, if_neg h7,
        if_neg h8, if_neg h9, if_neg h10]
    rw [hesc]
    have hdiv : (c.toNat - 65536) / 1024 < 1024 := by omega
    have hmod : (c.toNat - 65536) % 1024 < 1024 := by omega
    simp only [hex4, List.cons_append, List.nil_append, List.append_assoc]
    rw [unescF_cons_u, hexVal4_hex4 (55296 + (c.toNat - 65536) / 1024) (by omega)]
    dsimp only
    rw [if_pos (by omega)]
    rw [if_pos ⟨rfl, rfl⟩, hexVal4_hex4 (56320 + (c.toNat - 65536) % 1024) (by omega)]
    dsimp only
    rw [if_pos (by omega)]
    have harg : 65536 + (55296 + (c.toNat - 65536) / 1024 - 55296) * 1024 +
        (56320 + (c.toNat - 65536) % 1024 - 56320) = c.toNat := by omega
    rw [harg, Char.ofNat_toNat]

theorem unescF_jsonEscape (s : List Char) :
    ∀ (fuel : Nat) (r : List Char),
      unescF (s.length + fuel) (jsonEscape s ++ r) = (unescF fuel r).map (fun l => s ++ l) := by
  induction s with
  | nil =>
    intro fuel r
    have h0 : jsonEscape [] = [] := rfl
    rw [h0, List.nil_append]
    have h1 : ([] : List Char).length + fuel = fuel := by simp
    rw [h1]
    cases unescF fuel r <;> rfl
  | cons c t ih =>
    intro fuel r
    have h0 : jsonEscape (c :: t) = escChar c ++ jsonEscape t := by
      simp [jsonEscape]
    have h1 : (c :: t).length + fuel = (t.length + fuel) + 1 := by
      simp only [List.length_cons]; omega
    rw [h0, h1, List.append_assoc, unescF_escChar, ih fuel r]
    cases unescF fuel r <;> rfl

theorem jsonEscape_inj (s1 s2 : List Char) (h : jsonEscape s1 = jsonEscape s2) :
    s1 = s2 := by
  have h1 := unescF_jsonEscape s1 (s2.length + 1) []
  have h2 := unescF_jsonEscape s2 (s1.length + 1) []
  rw [List.append_nil] at h1 h2
  rw [h] at h1
  have hf : s2.length + (s1.length + 1) = s1.length + (s2.length + 1) := by omega
  rw [hf] at h2
  rw [h2] at h1
  have : some (s2 ++ []) = some (s1 ++ []) := h1
  simpa using this.symm

theorem jsonStrLit_inj (s1 s2 : List Char) (h : jsonStrLit s1 = jsonStrLit s2) :
    s1 = s2 := by
  unfold jsonStrLit at h
  injection h with _ h2
  exact jsonEscape_inj _ _ (List.append_cancel_right h2)

theorem jsonOptStr_inj (o1 o2 : Option (List Char))
    (h : jsonOptStr o1 = jsonOptStr o2) : o1 = o2 := by
  match o1, o2 with
  | none, none => rfl
  | none, some s =>
    have h1 : (jsonOptStr (none : Option (List Char))).head? = some 'n' := rfl
    have h2 : (jsonOptStr (some s)).head? = some '"' := rfl
    rw [h, h2] at h1
    exact absurd h1 (by decide)
  | some s, none =>
    have h1 : (jsonOptStr (none : Option (List Char))).head? = some 'n' := rfl
    have h2 : (jsonOptStr (some s)).head? = some '"' := rfl
    rw [← h, h2] at h1
    exact absurd h1 (by decide)
  | some s1, some s2 =>
    exact congrArg some (jsonStrLit_inj _ _ h)

theorem jsonBool_inj (b1 b2 : Bool) (h : jsonBool b1 = jsonBool b2) : b1 = b2 := by
  cases b1 <;> cases b2 <;> first | rfl | exact absurd h (by decide)

theorem hexDig_digit_toNat : ∀ d < 10, (hexDig d).toNat = 48 + d := by decide

theorem hexDig_digit_ne_x : ∀ d < 10, hexDig d ≠ 'x' := by decide

theorem natReprAux_foldl (fuel : Nat) : ∀ n a, n < fuel →
    (natReprAux n fuel).foldl (fun x c => x * 10 + (c.toNat - 48)) a =
      a * 10 ^ (natReprAux n fuel).length + n := by
  induction fuel with
  | zero => intro n a h; omega
  | succ f ih =>
    intro n a h
    by_cases h10 : n < 10
    · simp only [natReprAux, if_pos h10, List.foldl_cons, List.foldl_nil,
        List.length_cons, List.length_nil]
      rw [hexDig_digit_toNat n h10]
      simp only [pow_succ, pow_zero, Nat.one_mul]
      omega
    · simp only [natReprAux, if_neg h10]
      rw [List.foldl_append]
      have hrec : n / 10 < f := by omega
      rw [ih (n / 10) a hrec]
      simp only [List.foldl_cons, List.foldl_nil, List.length_append,
        List.length_cons, List.length_nil]
      rw [hexDig_digit_toNat (n % 10) (by omega)]
      have hl : (natReprAux (n / 10) f).length + (0 + 1) =
          (natReprAux (n / 10) f).length + 1 := by omega
      rw [hl, pow_succ]
      have hx : (a * 10 ^ (natReprAux (n / 10) f).length + n / 10) * 10 =
          a * (10 ^ (natReprAux (n / 10) f).length * 10) + n / 10 * 10 := by ring
      rw [hx]
      omega

theorem digitsVal_natRepr (n : Nat) :
    (natRepr n).foldl (fun x c => x * 10 + (c.toNat - 48)) 0 = n := by
  unfold natRepr
  have h := natReprAux_foldl (n + 1) n 0 (by omega)
  simpa using h

theorem natRepr_inj (m n : Nat) (h : natRepr m = natRepr n) : m = n := by
  have hm := digitsVal_natRepr m
  rw [h, digitsVal_natRepr] at hm
  exact hm.symm

theorem natReprAux_ne_x (fuel : Nat) : ∀ n, n < fuel →
    ∀ c ∈ natReprAux n fuel, c ≠ 'x' := by
  induction fuel with
  | zero => intro n h; omega
  | succ f ih =>
    intro n h c hc
    by_cases h10 : n < 10
    · simp only [natReprAux, if_pos h10, List.mem_singleton] at hc
      rw [hc]
      exact hexDig_digit_ne_x n h10
    · simp only [natReprAux, if_neg h10, List.mem_append, List.mem_singleton] at hc
      rcases hc with h' | h'
      · exact ih (n / 10) (by omega) c h'
      · rw [h']
        exact hexDig_digit_ne_x (n % 10) (by omega)

theorem natRepr_ne_x (n : Nat) : ∀ c ∈ natRepr n, c ≠ 'x' :=
  natReprAux_ne_x (n + 1) n (by omega)

theorem splitX : ∀ (a1 a2 b1 b2 : List Char),
    (∀ c ∈ a1, c ≠ 'x') → (∀ c ∈ a2, c ≠ 'x') →
    a1 ++ 'x' :: b1 = a2 ++ 'x' :: b2 → a1 = a2 ∧ b1 = b2
  | [], [], b1, b2, _, _, h => by
    rw [List.nil_append, List.nil_append] at h
    injection h with _ h2
    exact ⟨rfl, h2⟩
  | [], c2 :: t2, b1, b2, _, h2, h => by
    rw [List.nil_append, List.cons_append] at h
    injection h with hh _
    exact absurd hh.symm (h2 c2 (List.mem_cons_self _ _))
  | c1 :: t1, [], b1, b2, h1, _, h => by
    rw [List.nil_append, List.cons_append] at h
    injection h with hh _
    exact absurd hh (h1 c1 (List.mem_cons_self _ _))
  | c1 :: t1, c2 :: t2, b1, b2, h1, h2, h => by
    rw [List.cons_append, List.cons_append] at h
    injection h with hh ht
    obtain ⟨e1, e2⟩ := splitX t1 t2 b1 b2
      (fun c hc => h1 c (List.mem_cons_of_mem _ hc))
      (fun c hc => h2 c (List.mem_cons_of_mem _ hc)) ht
    exact ⟨by rw [hh, e1], e2⟩

theorem viewportStr_inj (w1 g1 w2 g2 : Nat)
    (h : viewportStr w1 g1 = viewportStr w2 g2) : w1 = w2 ∧ g1 = g2 := by
  unfold viewportStr at h
  obtain ⟨e1, e2⟩ := splitX (natRepr w1) (natRepr w2) (natRepr g1) (natRepr g2)
    (natRepr_ne_x w1) (natRepr_ne_x w2) h
  exact ⟨natRepr_inj _ _ e1, natRepr_inj _ _ e2⟩

theorem keyString_url_inj (u1 u2 : List Char) (o : CacheOptions) (vw vh : Nat)
    (h : keyString u1 o vw vh = keyString u2 o vw vh) : u1 = u2 := by
  unfold keyString at h
  replace h := List.append_cancel_right h
  replace h := List.append_cancel_right h
  replace h := List.append_cancel_right h
  exact jsonStrLit_inj _ _ (List.append_cancel_left h)

theorem keyString_viewport_inj (u : List Char) (o : CacheOptions) (vw1 vh1 vw2 vh2 : Nat)
    (h : keyString u o vw1 vh1 = keyString u o vw2 vh2) : vw1 = vw2 ∧ vh1 = vh2 := by
  unfold keyString at h
  replace h := List.append_cancel_right h
  exact viewportStr_inj _ _ _ _ (jsonStrLit_inj _ _ (List.append_cancel_left h))

theorem keyString_device_name_inj (u : List Char) (vw vh : Nat) (fp mb : Bool)
    (sel dn1 dn2 : Option (List Char))
    (h : keyString u ⟨fp, sel, mb, dn1⟩ vw vh = keyString u ⟨fp, sel, mb, dn2⟩ vw vh) :
    dn1 = dn2 := by
  unfold keyString at h
  dsimp only at h
  replace h := List.append_cancel_right h
  replace h := List.append_cancel_right h
  replace h := List.append_cancel_right h
  replace h := List.append_cancel_right h
  replace h := List.append_cancel_right h
  replace h := List.append_cancel_right h
  replace h := List.append_cancel_right h
  replace h := List.append_cancel_right h
  replace h := List.append_cancel_right h
  replace h := List.append_cancel_right h
  replace h := List.append_cancel_right h
  exact jsonOptStr_inj _ _ (List.append_cancel_left h)

theorem keyString_full_page_inj (u : List Char) (vw vh : Nat) (fp1 fp2 mb : Bool)
    (sel dn : Option (List Char))
    (h : keyString u ⟨fp1, sel, mb, dn⟩ vw vh = keyString u ⟨fp2, sel, mb, dn⟩ vw vh) :
    fp1 = fp2 := by
  unfold keyString at h
  dsimp only at h
  replace h := List.append_cancel_right h
  replace h := List.append_cancel_right h
  replace h := List.append_cancel_right h
  replace h := List.append_cancel_right h
  replace h := List.append_cancel_right h
  replace h := List.append_cancel_right h
  replace h := List.append_cancel_right h
  replace h := List.append_cancel_right h
  replace h := List.append_cancel_right h
  exact jsonBool_inj _ _ (List.append_cancel_left h)

theorem keyString_mobile_inj (u : List Char) (vw vh : Nat) (fp mb1 mb2 : Bool)
    (sel dn : Option (List Char))
    (h : keyString u ⟨fp, sel, mb1, dn⟩ vw vh = keyString u ⟨fp, sel, mb2, dn⟩ vw vh) :
    mb1 = mb2 := by
  unfold keyString at h
  dsimp only at h
  replace h := List.append_cancel_right h
  replace h := List.append_cancel_right h
  replace h := List.append_cancel_right h
  replace h := List.append_cancel_right h
  replace h := List.append_cancel_right h
  replace h := List.append_cancel_right h
  replace h := List.append_cancel_right h
  exact jsonBool_inj _ _ (List.append_cancel_left h)

theorem keyString_selector_inj (u : List Char) (vw vh : Nat) (fp mb : Bool)
    (sel1 sel2 dn : Option (List Char))
    (h : keyString u ⟨fp, sel1, mb, dn⟩ vw vh = keyString u ⟨fp, sel2, mb, dn⟩ vw vh) :
    sel1 = sel2 := by
  unfold keyString at h
  dsimp only at h
  replace h := List.append_cancel_right h
  replace h := List.append_cancel_right h
  replace h := List.append_cancel_right h
  replace h := List.append_cancel_right h
  replace h := List.append_cancel_right h
  exact jsonOptStr_inj _ _ (List.append_cancel_left h)

set_option maxRecDepth 100000 in
/-- C7: `get_cache_key` is deterministic — identical url, options and
viewport give identical digests — and every one of url, full_page,
selector, mobile, device_name and the viewport dimensions is faithfully
captured by the canonical serialization hashed into the key: changing
exactly one of them changes the serialized key string (hence the digest,
short of an MD5 collision), and on concrete sample inputs the MD5
digests themselves differ. -/
theorem c7_cache_key_determinism_and_sensitivity :
    (∀ (u1 u2 : List Char) (o1 o2 : CacheOptions) (vw1 vw2 vh1 vh2 : Nat),
      u1 = u2 → o1 = o2 → vw1 = vw2 → vh1 = vh2 →
      get_cache_key u1 o1 vw1 vh1 = get_cache_key u2 o2 vw2 vh2) ∧
    (∀ (u1 u2 : List Char) (o : CacheOptions) (vw vh : Nat), u1 ≠ u2 →
      keyString u1 o vw vh ≠ keyString u2 o vw vh) ∧
    (∀ (u : List Char) (o1 o2 : CacheOptions) (vw vh : Nat),
      o1.selector = o2.selector → o1.mobile = o2.mobile →
      o1.device_name = o2.device_name → o1.full_page ≠ o2.full_page →
      keyString u o1 vw vh ≠ keyString u o2 vw vh) ∧
    (∀ (u : List Char) (o1 o2 : CacheOptions) (vw vh : Nat),
      o1.full_page = o2.full_page → o1.mobile = o2.mobile →
      o1.device_name = o2.device_name → o1.selector ≠ o2.selector →
      keyString u o1 vw vh ≠ keyString u o2 vw vh) ∧
    (∀ (u : List Char) (o1 o2 : CacheOptions) (vw vh : Nat),
      o1.full_page = o2.full_page → o1.selector = o2.selector →
      o1.device_name = o2.device_name → o1.mobile ≠ o2.mobile →
      keyString u o1 vw vh ≠ keyString u o2 vw vh) ∧
    (∀ (u : List Char) (o1 o2 : CacheOptions) (vw vh : Nat),
      o1.full_page = o2.full_page → o1.selector = o2.selector →
      o1.mobile = o2.mobile → o1.device_name ≠ o2.device_name →
      keyString u o1 vw vh ≠ keyString u o2 vw vh) ∧
    (∀ (u : List Char) (o : CacheOptions) (vw1 vh1 vw2 vh2 : Nat),
      vw1 ≠ vw2 ∨ vh1 ≠ vh2 →
      keyString u o vw1 vh1 ≠ keyString u o vw2 vh2) ∧
    get_cache_key (("https://example.com").toList) ⟨true, none, false, none⟩ 1920 1080 ≠
      get_cache_key (("https://example.org").toList) ⟨true, none, false, none⟩ 1920 1080 := by
  refine ⟨?_, ?_, ?_, ?_, ?_, ?_, ?_, ?_⟩
  · intro u1 u2 o1 o2 vw1 vw2 vh1 vh2 h1 h2 h3 h4
    subst h1; subst h2; subst h3; subst h4; rfl
  · intro u1 u2 o vw vh hne heq
    exact hne (keyString_url_inj u1 u2 o vw vh heq)
  · intro u o1 o2 vw vh hs hm hd hne heq
    obtain ⟨fp1, sel1, mb1, dn1⟩ := o1
    obtain ⟨fp2, sel2, mb2, dn2⟩ := o2
    dsimp only at hs hm hd hne
    subst hs; subst hm; subst hd
    exact hne (keyString_full_page_inj u vw vh fp1 fp2 mb1 sel1 dn1 heq)
  · intro u o1 o2 vw vh hf hm hd hne heq
    obtain ⟨fp1, sel1, mb1, dn1⟩ := o1
    obtain ⟨fp2, sel2, mb2, dn2⟩ := o2
    dsimp only at hf hm hd hne
    subst hf; subst hm; subst hd
    exact hne (keyString_selector_inj u vw vh fp1 mb1 sel1 sel2 dn1 heq)
  · intro u o1 o2 vw vh hf hs hd hne heq
    obtain ⟨fp1, sel1, mb1, dn1⟩ := o1
    obtain ⟨fp2, sel2, mb2, dn2⟩ := o2
    dsimp only at hf hs hd hne
    subst hf; subst hs; subst hd
    exact hne (keyString_mobile_inj u vw vh fp1 mb1 mb2 sel1 dn1 heq)
  · intro u o1 o2 vw vh hf hs hm hne heq
    obtain ⟨fp1, sel1, mb1, dn1⟩ := o1
    obtain ⟨fp2, sel2, mb2, dn2⟩ := o2
    dsimp only at hf hs hm hne
    subst hf; subst hs; subst hm
    exact hne (keyString_device_name_inj u vw vh fp1 mb1 sel1 dn1 dn2 heq)
  · intro u o vw1 vh1 vw2 vh2 hne heq
    obtain ⟨e1, e2⟩ := keyString_viewport_inj u o vw1 vh1 vw2 vh2 heq
    rcases hne with h | h
    · exact h e1
    · exact h e2
  · decide

/-- C7 witness: sample instantiations of the sensitivity conjuncts with
their hypotheses discharged at concrete inputs. -/
theorem c7_cache_key_determinism_and_sensitivity_witness :
    keyString (("a").toList) ⟨true, none, false, none⟩ 1920 1080 ≠
      keyString (("b").toList) ⟨true, none, false, none⟩ 1920 1080 ∧
    keyString (("a").toList) ⟨true, none, false, none⟩ 1920 1080 ≠
      keyString (("a").toList) ⟨false, none, false, none⟩ 1920 1080 ∧
    keyString (("a").toList) ⟨true, none, false, none⟩ 1920 1080 ≠
      keyString (("a").toList) ⟨true, none, false, none⟩ 1280 720 := by
  refine ⟨?_, ?_, ?_⟩
  · exact c7_cache_key_determinism_and_sensitivity.2.1
      (("a").toList) (("b").toList) ⟨true, none, false, none⟩ 1920 1080 (by decide)
  · exact c7_cache_key_determinism_and_sensitivity.2.2.1
      (("a").toList) ⟨true, none, false, none⟩ ⟨false, none, false, none⟩ 1920 1080
      rfl rfl rfl (by decide)
  · exact c7_cache_key_determinism_and_sensitivity.2.2.2.2.2.2.1
      (("a").toList) ⟨true, none, false, none⟩ 1920 1080 1280 720 (Or.inl (by decide))

end Snapwright
